import Mathlib

/-!
# htop `linux/LibSensors.c` (rk3582 variant)

Shallow embedding of the dynamic-mode (`!BUILD_STATIC`) build of
`linux/LibSensors.c`: the lifecycle of the libsensors binding
(`LibSensors_init`, `LibSensors_cleanup`, `LibSensors_reload`), the driver
table lookup `tempDriverPriority`, the thermal-zone reader
`readTemperatureFromFile` and the per-cycle entry point
`LibSensors_getCPUTemperatures`.

* The process-wide variables of the translation unit (`dlopenHandle`, the
  six `sym_*` function pointers) are fields of `World`; pointers are natural
  numbers with `0` for `NULL`.
* Every call that leaves the translation unit is appended to `World.trace`,
  oldest first, so that "which operations were performed, and in which
  order" is a statement about a list.
* What the outside answers (the dynamic linker, libsensors, the file system,
  the allocator) is collected in `Env`.
* A C `double` is NaN, an infinity, or the rational a finite binary64 value
  denotes; arithmetic results are rounded to nearest, ties to even.
* C strings are lists of characters, one `Char` per byte; a NUL inside the
  buffer is a character that no part of a number accepts, which stops the
  conversion where the C string would end.
-/

namespace LibSensors

/-! ## Constants -/

/-- `RTLD_LAZY` of `<dlfcn.h>` (Linux value). -/
def RTLD_LAZY : Nat := 1

/-- `ENOTSUP` of `<errno.h>` (Linux value). -/
def ENOTSUP : Int := 95

/-- `#define THERMAL_ZONE_PATH` (line 29). -/
def THERMAL_ZONE_PATH : String := "/sys/devices/virtual/thermal/thermal_zone2/temp"

/-! ## Trace events and process state -/

/-- One call leaving the translation unit. -/
inductive Event
  | dlopen (name : String) (flag : Nat)
  | dlerror
  | dlsym (handle : Nat) (symbol : String)
  | dlclose (handle : Nat)
  | sensors_init (fn : Nat) (input : Nat)
  | sensors_cleanup (fn : Nat)
  | set_errno (value : Int)
  | malloc (bytes : Nat)
  | free
  | fopen (path : String)
  | fgets (size : Nat)
  | fclose
  | perror (msg : String)
  deriving DecidableEq, Repr

/-- The six entry points bound by `resolve(...)` (lines 80-85). -/
inductive Sym
  | sensors_init
  | sensors_cleanup
  | sensors_get_detected_chips
  | sensors_get_features
  | sensors_get_subfeature
  | sensors_get_value
  deriving DecidableEq, Repr

/-- The `#symbolname` string passed to `dlsym`. -/
def Sym.name : Sym → String
  | .sensors_init => "sensors_init"
  | .sensors_cleanup => "sensors_cleanup"
  | .sensors_get_detected_chips => "sensors_get_detected_chips"
  | .sensors_get_features => "sensors_get_features"
  | .sensors_get_subfeature => "sensors_get_subfeature"
  | .sensors_get_value => "sensors_get_value"

/-- The order of the `resolve(...)` lines 80-85. -/
def requiredSymbols : List Sym :=
  [.sensors_init, .sensors_cleanup, .sensors_get_detected_chips,
   .sensors_get_features, .sensors_get_subfeature, .sensors_get_value]

/-- Process-wide state: the static variables of lines 42-49, the pending
error message of libdl (what the next `dlerror()` reports), and the trace. -/
structure World where
  dlopenHandle : Nat
  sym_sensors_init : Nat
  sym_sensors_cleanup : Nat
  sym_sensors_get_detected_chips : Nat
  sym_sensors_get_features : Nat
  sym_sensors_get_subfeature : Nat
  sym_sensors_get_value : Nat
  dlerrorPending : Bool
  trace : List Event
  deriving DecidableEq, Repr

/-- State at program start: statics zero-initialised, nothing called yet. -/
def World.initial : World :=
  ⟨0, 0, 0, 0, 0, 0, 0, false, []⟩

/-- Append one event to the trace. -/
def World.log (w : World) (e : Event) : World :=
  { w with trace := w.trace ++ [e] }

/-- Read `sym_<s>`. -/
def World.getSym (w : World) : Sym → Nat
  | .sensors_init => w.sym_sensors_init
  | .sensors_cleanup => w.sym_sensors_cleanup
  | .sensors_get_detected_chips => w.sym_sensors_get_detected_chips
  | .sensors_get_features => w.sym_sensors_get_features
  | .sensors_get_subfeature => w.sym_sensors_get_subfeature
  | .sensors_get_value => w.sym_sensors_get_value

/-- Assign `sym_<s> = p`. -/
def World.setSym (w : World) (s : Sym) (p : Nat) : World :=
  match s with
  | .sensors_init => { w with sym_sensors_init := p }
  | .sensors_cleanup => { w with sym_sensors_cleanup := p }
  | .sensors_get_detected_chips => { w with sym_sensors_get_detected_chips := p }
  | .sensors_get_features => { w with sym_sensors_get_features := p }
  | .sensors_get_subfeature => { w with sym_sensors_get_subfeature := p }
  | .sensors_get_value => { w with sym_sensors_get_value := p }

/-- The events appended between `w` and a later world `w1`. -/
def newEvents (w w1 : World) : List Event :=
  w1.trace.drop w.trace.length

/-! ## C `double` -/

/-- Values of a C `double` (IEEE-754 binary64): not-a-number, the two
infinities, and the finite values, each given by the rational it denotes.
NaN payloads and the sign of zero are not distinguished. -/
inductive Double
  | nan
  | inf (negative : Bool)
  | fin (value : ℚ)
  deriving DecidableEq, Repr

/-- The C macro `NAN`. -/
def NAN : Double := Double.nan

/-- The C macro `isnan`. -/
def isnan : Double → Bool
  | .nan => true
  | _ => false

/-- Nearest integer, ties to even. -/
def roundHalfEven (q : ℚ) : ℤ :=
  if q - ⌊q⌋ < 1 / 2 then ⌊q⌋
  else if 1 / 2 < q - ⌊q⌋ then ⌊q⌋ + 1
  else if ⌊q⌋ % 2 = 0 then ⌊q⌋ else ⌊q⌋ + 1

/-- Rounding of an exact result to binary64, round-to-nearest-even: 53
significant bits, minimum exponent `-1022` (gradual underflow), overflow to
infinity from `2^1024` on. -/
def Double.ofRat (q : ℚ) : Double :=
  if q = 0 then .fin 0
  else
    let e : ℤ := max (Int.log 2 |q|) (-1022)
    let ulp : ℚ := (2 : ℚ) ^ (e - 52)
    let r : ℚ := roundHalfEven (q / ulp) * ulp
    if (2 : ℚ) ^ (1024 : ℕ) ≤ |r| then .inf (decide (q < 0)) else .fin r

/-- The C operator `/` on `double`.  Because the sign of zero is not
modelled, a division of a non-zero value by zero takes the sign of the
dividend. -/
def Double.div : Double → Double → Double
  | .nan, _ => .nan
  | _, .nan => .nan
  | .inf _, .inf _ => .nan
  | .inf s, .fin d => .inf (s != decide (d < 0))
  | .fin _, .inf _ => .fin 0
  | .fin a, .fin d =>
    if d = 0 then (if a = 0 then .nan else .inf (decide (a < 0)))
    else Double.ofRat (a / d)

/-- The finite binary64 values, independently of any rounding rule: an
integer significand of magnitude below `2^53` times a power of two with
exponent between `-1074` and `971`. -/
def isBinary64 (r : ℚ) : Prop :=
  ∃ m e : ℤ, |m| < 2 ^ 53 ∧ -1074 ≤ e ∧ e ≤ 971 ∧ r = m * (2 : ℚ) ^ e

/-- A hardware-monitoring chip as libsensors reports it: the `prefix` field of
`sensors_chip_name` and the values of its temperature inputs. -/
structure Chip where
  chipPrefix : String
  temps : List Double
  deriving DecidableEq, Repr

/-- What a path of the file system holds when `fopen(path, "r")` is attempted. -/
inductive File
  | absent
  | readError
  | content (bytes : List Char)
  deriving DecidableEq, Repr

/-- Answers of the outside world during one call. -/
structure Env where
  /-- Result of `dlopen(name, RTLD_LAZY)`: the handle, `0` when it fails. -/
  dlopen : String → Nat
  /-- Result of `dlsym(handle, symbol)`: `none` when the lookup fails (returns
  `NULL` and leaves an error message), `some a` when it finds address `a`. -/
  dlsym : Nat → String → Option Nat
  /-- Status code the library's `sensors_init` returns. -/
  sensors_init : Int
  /-- Chips `sensors_get_detected_chips` would enumerate, in detection order. -/
  chips : List Chip
  /-- The file system. -/
  file : String → File
  /-- Whether `malloc` succeeds. -/
  mallocOk : Bool
  /-- Uninitialised content of a freshly allocated block, by index. -/
  heap : Nat → Double

/-! ## libdl primitives -/

/-- Model of `dlopen(name, flag)`; a failure leaves an error message pending. -/
def dlopen (env : Env) (name : String) (flag : Nat) (w : World) : Nat × World :=
  (env.dlopen name,
   { w.log (.dlopen name flag) with
     dlerrorPending := w.dlerrorPending || (env.dlopen name == 0) })

/-- Model of `dlerror()`: reports whether a message is pending and clears it. -/
def dlerror (w : World) : Bool × World :=
  (w.dlerrorPending, { w.log .dlerror with dlerrorPending := false })

/-- Model of `dlsym(handle, symbol)`. -/
def dlsym (env : Env) (handle : Nat) (symbol : String) (w : World) : Nat × World :=
  match env.dlsym handle symbol with
  | some a => (a, w.log (.dlsym handle symbol))
  | none => (0, { w.log (.dlsym handle symbol) with dlerrorPending := true })

/-- Model of `dlclose(handle)`. -/
def dlclose (handle : Nat) (w : World) : World :=
  w.log (.dlclose handle)

/-! ## `LibSensors_init` (lines 53-101) -/

/-- The `resolve(symbolname)` block of lines 74-78; `false` is `goto dlfailure`. -/
def resolve (env : Env) (s : Sym) (w : World) : Bool × World :=
  let r := dlsym env w.dlopenHandle s.name w
  let w1 := r.2.setSym s r.1
  if w1.getSym s = 0 then (false, w1)
  else
    let d := dlerror w1
    if d.1 then (false, d.2) else (true, d.2)

/-- The consecutive `resolve(...)` lines: stops at the first `goto dlfailure`. -/
def resolveAll (env : Env) : List Sym → World → Bool × World
  | [], w => (true, w)
  | s :: rest, w =>
    let r := resolve env s w
    if r.1 then resolveAll env rest r.2 else (false, r.2)

/-- The `dlfailure:` label, lines 93-98. -/
def dlfailure (w : World) : Int × World :=
  if w.dlopenHandle ≠ 0 then
    (-1, { dlclose w.dlopenHandle w with dlopenHandle := 0 })
  else
    (-1, w)

/-- The call `sym_sensors_init(NULL)`; calling through a null pointer is
undefined behaviour (`none`). -/
def call_sensors_init (env : Env) (w : World) : Option (Int × World) :=
  if w.sym_sensors_init = 0 then none
  else some (env.sensors_init, w.log (.sensors_init w.sym_sensors_init 0))

/-- The call `sym_sensors_cleanup()`. -/
def call_sensors_cleanup (w : World) : Option World :=
  if w.sym_sensors_cleanup = 0 then none
  else some (w.log (.sensors_cleanup w.sym_sensors_cleanup))

/-- The statement `dlopenHandle = dlopen(name, RTLD_LAZY);`. -/
def openInto (env : Env) (name : String) (w : World) : World :=
  { (dlopen env name RTLD_LAZY w).2 with dlopenHandle := (dlopen env name RTLD_LAZY w).1 }

/-- Lines 63-67: the three `dlopen` attempts. -/
def openCandidates (env : Env) (w : World) : World :=
  let w1 := openInto env "libsensors.so" w
  let w2 := if w1.dlopenHandle = 0 then openInto env "libsensors.so.5" w1 else w1
  if w2.dlopenHandle = 0 then openInto env "libsensors.so.4" w2 else w2

/-- Model of `LibSensors_init`, dynamic mode. -/
def LibSensors_init (env : Env) (w : World) : Option (Int × World) :=
  if w.dlopenHandle = 0 then
    let w3 := openCandidates env w
    if w3.dlopenHandle = 0 then some (dlfailure w3)
    else
      let w4 := (dlerror w3).2
      let r := resolveAll env requiredSymbols w4
      if r.1 then call_sensors_init env r.2 else some (dlfailure r.2)
  else
    call_sensors_init env w

/-! ## `LibSensors_cleanup` (lines 103-118) and `LibSensors_reload` (120-130) -/

/-- Model of `LibSensors_cleanup`, dynamic mode. -/
def LibSensors_cleanup (w : World) : Option World :=
  if w.dlopenHandle ≠ 0 then
    (call_sensors_cleanup w).map fun w1 =>
      { dlclose w1.dlopenHandle w1 with dlopenHandle := 0 }
  else
    some w

/-- Model of `LibSensors_reload`, dynamic mode. -/
def LibSensors_reload (env : Env) (w : World) : Option (Int × World) :=
  if w.dlopenHandle = 0 then
    some (-1, w.log (.set_errno ENOTSUP))
  else
    (call_sensors_cleanup w).bind fun w1 => call_sensors_init env w1

/-- The three lifecycle entry points. -/
inductive Op
  | init
  | cleanup
  | reload
  deriving DecidableEq, Repr

/-- State after one lifecycle call (`none`: undefined behaviour). -/
def Op.run (env : Env) : Op → World → Option World
  | .init, w => (LibSensors_init env w).map Prod.snd
  | .cleanup, w => LibSensors_cleanup w
  | .reload, w => (LibSensors_reload env w).map Prod.snd

/-- Every required symbol pointer is non-null. -/
def World.allResolved (w : World) : Prop :=
  ∀ s ∈ requiredSymbols, w.getSym s ≠ 0

/-- Handle of the first candidate name that opens (`0` when none does). -/
def firstOpened (env : Env) : List String → Nat
  | [] => 0
  | n :: rest => if env.dlopen n ≠ 0 then env.dlopen n else firstOpened env rest

/-- Candidate names that get tried: up to and including the first that opens. -/
def triedNames (env : Env) : List String → List String
  | [] => []
  | n :: rest => if env.dlopen n ≠ 0 then [n] else n :: triedNames env rest

/-- Candidate names in the order of lines 63-67. -/
def candidateNames : List String :=
  ["libsensors.so", "libsensors.so.5", "libsensors.so.4"]

/-- Whether an event is a `dlopen`. -/
def Event.isDlopen : Event → Bool
  | .dlopen _ _ => true
  | _ => false

/-- A sample environment: only `libsensors.so.5` opens (handle 7) and it
exports every symbol at address 100. -/
def sampleEnv : Env where
  dlopen := fun n => if n = "libsensors.so.5" then 7 else 0
  dlsym := fun h _ => if h = 7 then some 100 else none
  sensors_init := 0
  chips := []
  file := fun _ => .absent
  mallocOk := true
  heap := fun _ => .fin 0

/-- The state after `LibSensors_init` succeeded against `sampleEnv` at
program start. -/
def boundWorld : World where
  dlopenHandle := 7
  sym_sensors_init := 100
  sym_sensors_cleanup := 100
  sym_sensors_get_detected_chips := 100
  sym_sensors_get_features := 100
  sym_sensors_get_subfeature := 100
  sym_sensors_get_value := 100
  dlerrorPending := false
  trace :=
    [.dlopen "libsensors.so" 1, .dlopen "libsensors.so.5" 1, .dlerror,
     .dlsym 7 "sensors_init", .dlerror, .dlsym 7 "sensors_cleanup", .dlerror,
     .dlsym 7 "sensors_get_detected_chips", .dlerror,
     .dlsym 7 "sensors_get_features", .dlerror,
     .dlsym 7 "sensors_get_subfeature", .dlerror,
     .dlsym 7 "sensors_get_value", .dlerror, .sensors_init 100 0]

/-! ## `tempDriverPriority` (lines 132-151) -/

/-- The `struct TempDriverDefs` of lines 133-136. -/
structure TempDriverDefs where
  driverPrefix : String
  priority : Int
  deriving DecidableEq, Repr

/-- The table `tempDrivers[]`, lines 136-144. -/
def tempDrivers : List TempDriverDefs :=
  [⟨"coretemp", 0⟩, ⟨"via_cputemp", 0⟩, ⟨"cpu_thermal", 0⟩, ⟨"k10temp", 0⟩,
   ⟨"zenpower", 0⟩,
   -- Low priority drivers
   ⟨"acpitz", 1⟩]

/-- Modelled from the spec: `String_eq` of `XUtils.h`, which is not part of
the sources at hand; the spec calls the comparison an exact match of the
chip's prefix string against the table entry. -/
def String_eq (s1 s2 : String) : Bool :=
  s1 == s2

/-- The `for` loop of lines 146-150 over the remaining table entries
(`ARRAYSIZE(tempDrivers)` is the length of the table). -/
def tempDriverPriorityFrom (chip : Chip) : List TempDriverDefs → Int
  | [] => -1
  | d :: rest =>
    if String_eq chip.chipPrefix d.driverPrefix then d.priority
    else tempDriverPriorityFrom chip rest

/-- Model of `tempDriverPriority`. -/
def tempDriverPriority (chip : Chip) : Int :=
  tempDriverPriorityFrom chip tempDrivers

/-! ## `strtod` and `fgets` (C library) -/

/-- The C function `isspace` in the "C" locale. -/
def isspace (c : Char) : Bool :=
  c = ' ' || c = '\t' || c = '\n' || c = '\x0b' || c = '\x0c' || c = '\r'

/-- Value of a decimal digit character. -/
def digitValue (c : Char) : Nat :=
  c.toNat - 48

/-- Value of a string of decimal digits, most significant first. -/
def decimalValue (ds : List Char) : Nat :=
  ds.foldl (fun acc c => 10 * acc + digitValue c) 0

/-- The C function `isxdigit`. -/
def isxdigit (c : Char) : Bool :=
  c.isDigit || ('a' ≤ c && c ≤ 'f') || ('A' ≤ c && c ≤ 'F')

/-- Value of a hexadecimal digit character. -/
def hexDigitValue (c : Char) : Nat :=
  if c.isDigit then c.toNat - 48
  else if 'a' ≤ c && c ≤ 'f' then c.toNat - 87
  else c.toNat - 55

/-- Value of a string of hexadecimal digits, most significant first. -/
def hexValue (ds : List Char) : Nat :=
  ds.foldl (fun acc c => 16 * acc + hexDigitValue c) 0

/-- Whether the input starts with a minus sign. -/
def startsWithMinus : List Char → Bool
  | c :: _ => c = '-'
  | [] => false

/-- The input without its leading sign character, if it has one. -/
def dropSign : List Char → List Char
  | c :: r => if c = '-' ∨ c = '+' then r else c :: r
  | [] => []

/-- Digits of the fraction: when the input starts with a decimal point, the
digits (as recognised by `isDig`) that follow it. -/
def fractionDigits (isDig : Char → Bool) : List Char → List Char
  | c :: t => if c = '.' then t.takeWhile isDig else []
  | [] => []

/-- The input after its fraction (decimal point and digits), if it has one. -/
def afterFraction (isDig : Char → Bool) : List Char → List Char
  | c :: t => if c = '.' then t.dropWhile isDig else c :: t
  | [] => []

/-- Optional exponent part introduced by one of the two given marker
characters: marker, optional sign, non-empty decimal digits.  `0` when the
input does not start with a complete exponent part. -/
def parseExponent (lower upper : Char) : List Char → Int
  | [] => 0
  | c :: t =>
    if c = lower ∨ c = upper then
      if (dropSign t).takeWhile Char.isDigit = [] then 0
      else if startsWithMinus t then -(decimalValue ((dropSign t).takeWhile Char.isDigit) : Int)
      else (decimalValue ((dropSign t).takeWhile Char.isDigit) : Int)
    else 0

/-- Decimal floating constant at the start of the input: digits with an
optional decimal point, then an optional `e` exponent.  `none` when there is
no digit. -/
def parseDecimal (s : List Char) : Option ℚ :=
  let ip := s.takeWhile Char.isDigit
  let r := s.dropWhile Char.isDigit
  let fp := fractionDigits Char.isDigit r
  let r2 := afterFraction Char.isDigit r
  if ip = [] ∧ fp = [] then none
  else some ((decimalValue (ip ++ fp) : ℚ) * (10 : ℚ) ^ (parseExponent 'e' 'E' r2 - fp.length))

/-- Hexadecimal floating constant at the start of the input: `0x`, hex digits
with an optional point, then an optional binary `p` exponent.  `none` when
`0x` is missing or is followed by no hex digit. -/
def parseHex (s : List Char) : Option ℚ :=
  match s with
  | z :: x :: body =>
    if z = '0' ∧ (x = 'x' ∨ x = 'X') then
      let ip := body.takeWhile isxdigit
      let r := body.dropWhile isxdigit
      let fp := fractionDigits isxdigit r
      let r2 := afterFraction isxdigit r
      if ip = [] ∧ fp = [] then none
      else some ((hexValue (ip ++ fp) : ℚ) *
        (2 : ℚ) ^ (parseExponent 'p' 'P' r2 - 4 * (fp.length : Int)))
    else none
  | _ => none

/-- Whether the input starts with the given lower-case word, ignoring case. -/
def startsWithIgnoringCase (s : List Char) (word : List Char) : Bool :=
  (s.take word.length).map Char.toLower == word

/-- The part of `strtod` after white space and sign: `inf`/`infinity`,
`nan`, a hexadecimal or a decimal constant, rounded to binary64 with the
sign applied.  When no conversion can be performed the result is zero. -/
def strtodBody (neg : Bool) (u : List Char) : Double :=
  if startsWithIgnoringCase u ['i', 'n', 'f'] then .inf neg
  else if startsWithIgnoringCase u ['n', 'a', 'n'] then .nan
  else
    match parseHex u with
    | some q => Double.ofRat (if neg then -q else q)
    | none =>
      match parseDecimal u with
      | some q => Double.ofRat (if neg then -q else q)
      | none => .fin 0

/-- The C function `strtod(s, NULL)` in the "C" locale on the characters of
the string before its terminating NUL: skips white space, takes an optional
sign, then converts what follows. -/
def strtod (s : List Char) : Double :=
  strtodBody (startsWithMinus (s.dropWhile isspace)) (dropSign (s.dropWhile isspace))

/-- Characters `fgets` stores when it may store at most `n` of them: it stops
after a newline, at end of file, or when `n` characters are stored. -/
def fgetsChars : Nat → List Char → List Char
  | 0, _ => []
  | _ + 1, [] => []
  | n + 1, c :: cs => if c = '\n' then [c] else c :: fgetsChars n cs

/-! ## `readTemperatureFromFile` (lines 152-168) -/

/-- Model of `readTemperatureFromFile`; `buffer` has 16 bytes, so `fgets`
stores at most 15 characters. -/
def readTemperatureFromFile (env : Env) (filePath : String) (w : World) : Double × World :=
  let w1 := w.log (.fopen filePath)
  match env.file filePath with
  | .absent => (NAN, w1.log (.perror "Failed to open temperature file"))
  | .readError =>
    (NAN, ((w1.log (.fgets 16)).log (.perror "Failed to read temperature")).log .fclose)
  | .content bytes =>
    if fgetsChars (16 - 1) bytes = [] then
      (NAN, ((w1.log (.fgets 16)).log (.perror "Failed to read temperature")).log .fclose)
    else
      (Double.div (strtod (fgetsChars (16 - 1) bytes)) (.fin 1000),
       (w1.log (.fgets 16)).log .fclose)

/-! ## `LibSensors_getCPUTemperatures` (lines 169-193) -/

/-- Modelled from the spec: the record `CPUData` of `linux/LinuxMachine.h`,
which is not part of the sources at hand; the spec describes it as a record
with a mutable floating-point temperature field.  All its other fields are
kept as one value. -/
structure CPUData where
  temperature : Double
  others : Nat
  deriving DecidableEq, Repr

/-- Ways in which a call does not return normally. -/
inductive Fault
  | assertionFailed
  | outOfBounds
  deriving DecidableEq, Repr

/-- The loops `for (i = 0; i < n; i++) data[i] = v;` of lines 178-179 and
185-186 on a block: its first `n` entries become `v`. -/
def fillFrom (v : Double) : Nat → List Double → List Double
  | 0, data => data
  | _, [] => []
  | n + 1, _ :: rest => v :: fillFrom v n rest

/-- The statement `cpus[i].temperature = data[i];`. -/
def storeTemperature (data : List Double) (cpus : List CPUData) (i : Nat) :
    Except Fault (List CPUData) :=
  match data[i]?, cpus[i]? with
  | some t, some c => .ok (cpus.set i { c with temperature := t })
  | _, _ => .error .outOfBounds

/-- The loop of lines 189-190 over the given indices. -/
def copyOut (data : List Double) : List Nat → List CPUData → Except Fault (List CPUData)
  | [], cpus => .ok cpus
  | i :: rest, cpus =>
    match storeTemperature data cpus i with
    | .ok cpus1 => copyOut data rest cpus1
    | .error f => .error f

set_option linter.unusedVariables false in
/-- Model of `LibSensors_getCPUTemperatures`.  The `assert` of line 170 is
active; under it `existingCPUs + 1` cannot wrap around in `unsigned int`.
`sizeof(double)` is 8.  A failed assertion and an access outside `cpus` end
the call with a `Fault`. -/
def LibSensors_getCPUTemperatures (env : Env) (cpus : List CPUData)
    (existingCPUs activeCPUs : Nat) (w : World) : Except Fault (List CPUData × World) :=
  if ¬(existingCPUs > 0 ∧ existingCPUs < 16384) then .error .assertionFailed
  else
    let w1 := w.log (.malloc ((existingCPUs + 1) * 8))
    if ¬env.mallocOk then
      .ok (cpus, w1.log (.perror "Failed to allocate memory for temperature data"))
    else
      let data0 := (List.range (existingCPUs + 1)).map env.heap
      let data1 := fillFrom NAN (existingCPUs + 1) data0
      let r := readTemperatureFromFile env THERMAL_ZONE_PATH w1
      let data2 := if ¬isnan r.1 then fillFrom r.1 (existingCPUs + 1) data1 else data1
      match copyOut data2 (List.range (existingCPUs + 1)) cpus with
      | .ok cpus1 => .ok (cpus1, r.2.log .free)
      | .error f => .error f

/-- States reachable from program start by calls of the entry points of this
file, each against an arbitrary environment: the lifecycle calls (`step`)
and the per-cycle temperature refresh (`refresh`). -/
inductive Reachable : World → Prop
  | start : Reachable World.initial
  | step {w w1 : World} (env : Env) (op : Op) :
      Reachable w → op.run env w = some w1 → Reachable w1
  | refresh {w w1 : World} (env : Env) (cpus cpus1 : List CPUData)
      (existingCPUs activeCPUs : Nat) :
      Reachable w →
      LibSensors_getCPUTemperatures env cpus existingCPUs activeCPUs w = .ok (cpus1, w1) →
      Reachable w1

/-! ## Auxiliary notions and sample data for the statements -/

/-- Whether the first character is a decimal digit. -/
def headIsDigit : List Char → Bool
  | c :: _ => c.isDigit
  | [] => false

/-- Whether the text starts with a numeral: a digit, or a decimal point
followed by a digit. -/
def startsNumeral : List Char → Bool
  | c :: rest => c.isDigit || (c = '.' && headIsDigit rest)
  | [] => false

/-- Whether a line begins with a number: after optional white space and an
optional sign comes a numeral. -/
def beginsWithNumber (line : List Char) : Bool :=
  startsNumeral (dropSign (line.dropWhile isspace))

/-- Whether a line begins, after optional white space and an optional sign,
with the given lower-case word, case ignored. -/
def beginsWithWord (line : List Char) (word : List Char) : Bool :=
  startsWithIgnoringCase (dropSign (line.dropWhile isspace)) word

/-- Detected chips that `tempDriverPriority` recognises. -/
def qualifyingChips (chips : List Chip) : List Chip :=
  chips.filter fun c => tempDriverPriority c ≠ -1

/-- The spec's selection rule: the recognised chips whose priority value is
lowest among the recognised chips. -/
def bestChips (chips : List Chip) : List Chip :=
  (qualifyingChips chips).filter fun c =>
    ∀ d ∈ qualifyingChips chips, tempDriverPriority c ≤ tempDriverPriority d

/-- A sample environment without libsensors whose thermal-zone path holds the
given file. -/
def thermalEnv (f : File) (chips : List Chip) (mallocOk : Bool) : Env where
  dlopen := fun _ => 0
  dlsym := fun _ _ => none
  sensors_init := 0
  chips := chips
  file := fun p => if p = THERMAL_ZONE_PATH then f else .absent
  mallocOk := mallocOk
  heap := fun _ => .fin 0

/-- Five records (aggregate and four CPUs) still holding 30 degrees from an
earlier cycle. -/
def staleCpus : List CPUData :=
  List.replicate 5 ⟨.fin 30, 0⟩

/-- Two detected chips: a low-priority `acpitz` first, then `coretemp`. -/
def sampleChips : List Chip :=
  [⟨"acpitz", [.fin 40]⟩, ⟨"coretemp", [.fin 60, .fin 61]⟩]

/-! ## Lemmas on the binding phase -/

theorem resolve_handle (env : Env) (s : Sym) (w : World) :
    (resolve env s w).2.dlopenHandle = w.dlopenHandle := by
  unfold resolve dlsym dlerror
  cases hd : env.dlsym w.dlopenHandle s.name <;> cases s <;>
    simp [World.setSym, World.getSym, World.log] <;> split_ifs <;> simp

theorem resolve_trace (env : Env) (s : Sym) (w : World) :
    ∃ evs, (resolve env s w).2.trace = w.trace ++ evs ∧
      ∀ e ∈ evs, e = Event.dlsym w.dlopenHandle s.name ∨ e = Event.dlerror := by
  unfold resolve dlsym dlerror
  cases hd : env.dlsym w.dlopenHandle s.name <;> cases s <;>
    simp [World.setSym, World.getSym, World.log] <;> split_ifs <;> simp

theorem resolve_ok (env : Env) (s : Sym) (w : World)
    (h : (resolve env s w).1 = true) :
    (resolve env s w).2.dlerrorPending = false ∧
    (resolve env s w).2.getSym s ≠ 0 ∧
    ∀ t, w.getSym t ≠ 0 → (resolve env s w).2.getSym t ≠ 0 := by
  revert h
  unfold resolve dlsym dlerror
  cases hd : env.dlsym w.dlopenHandle s.name <;> cases s <;>
    simp [World.setSym, World.getSym, World.log] <;> split_ifs <;>
    simp_all <;> intro t <;> cases t <;> simp_all [World.getSym]

/-- With no libdl error pending, `resolve` fails exactly when the lookup
fails or finds a null address. -/
theorem resolve_fail_iff (env : Env) (s : Sym) (w : World)
    (hp : w.dlerrorPending = false) :
    (resolve env s w).1 = false ↔
      (env.dlsym w.dlopenHandle s.name = none ∨
       env.dlsym w.dlopenHandle s.name = some 0) := by
  unfold resolve dlsym dlerror
  cases hd : env.dlsym w.dlopenHandle s.name <;> cases s <;>
    simp [World.setSym, World.getSym, World.log, hp] <;> split_ifs <;> simp_all

theorem resolveAll_handle (env : Env) (l : List Sym) (w : World) :
    (resolveAll env l w).2.dlopenHandle = w.dlopenHandle := by
  induction l generalizing w with
  | nil => rfl
  | cons s rest ih =>
    simp only [resolveAll]
    split_ifs
    · rw [ih, resolve_handle]
    · exact resolve_handle env s w

theorem resolveAll_trace (env : Env) (l : List Sym) (w : World) :
    ∃ evs, (resolveAll env l w).2.trace = w.trace ++ evs ∧
      ∀ e ∈ evs, (∃ n, e = Event.dlsym w.dlopenHandle n) ∨ e = Event.dlerror := by
  induction l generalizing w with
  | nil => exact ⟨[], by simp [resolveAll]⟩
  | cons s rest ih =>
    obtain ⟨e1, h1, p1⟩ := resolve_trace env s w
    simp only [resolveAll]
    split_ifs
    · obtain ⟨e2, h2, p2⟩ := ih (resolve env s w).2
      refine ⟨e1 ++ e2, by rw [h2, h1, List.append_assoc], ?_⟩
      intro e he
      rcases List.mem_append.mp he with he | he
      · rcases p1 e he with h | h
        · exact Or.inl ⟨_, h⟩
        · exact Or.inr h
      · have := p2 e he
        rwa [resolve_handle] at this
    · refine ⟨e1, h1, ?_⟩
      intro e he
      rcases p1 e he with h | h
      · exact Or.inl ⟨_, h⟩
      · exact Or.inr h

theorem resolveAll_ok (env : Env) (l : List Sym) (w : World)
    (h : (resolveAll env l w).1 = true) :
    (∀ s ∈ l, (resolveAll env l w).2.getSym s ≠ 0) ∧
    ∀ t, w.getSym t ≠ 0 → (resolveAll env l w).2.getSym t ≠ 0 := by
  induction l generalizing w with
  | nil => exact ⟨by simp, fun t ht => ht⟩
  | cons s rest ih =>
    simp only [resolveAll] at h ⊢
    by_cases h1 : (resolve env s w).1 = true
    · simp only [h1, if_true] at h ⊢
      obtain ⟨_, hs, hk⟩ := resolve_ok env s w h1
      obtain ⟨ha, hb⟩ := ih (resolve env s w).2 h
      refine ⟨?_, fun t ht => hb t (hk t ht)⟩
      intro t ht
      rcases List.mem_cons.mp ht with rfl | ht
      · exact hb _ hs
      · exact ha t ht
    · simp [h1] at h

theorem resolveAll_succeeds (env : Env) (l : List Sym) (w : World)
    (hp : w.dlerrorPending = false)
    (hs : ∀ s ∈ l, ∃ a, a ≠ 0 ∧ env.dlsym w.dlopenHandle s.name = some a) :
    (resolveAll env l w).1 = true := by
  induction l generalizing w with
  | nil => rfl
  | cons s rest ih =>
    simp only [resolveAll]
    have h1 : (resolve env s w).1 = true := by
      by_contra hc
      have hc1 : (resolve env s w).1 = false := by simpa using hc
      obtain ⟨a, ha, hd⟩ := hs s (List.mem_cons_self _ _)
      rcases (resolve_fail_iff env s w hp).mp hc1 with h | h
      · rw [hd] at h; cases h
      · rw [hd] at h; exact ha (by simpa using h)
    simp only [h1, if_true]
    obtain ⟨hq, _, _⟩ := resolve_ok env s w h1
    apply ih _ hq
    intro t ht
    rw [resolve_handle]
    exact hs t (List.mem_cons_of_mem _ ht)

theorem openCandidates_handle (env : Env) (w : World) :
    (openCandidates env w).dlopenHandle = firstOpened env candidateNames := by
  simp only [openCandidates, openInto, dlopen, firstOpened, candidateNames, World.log]
  split_ifs <;> simp_all

theorem openCandidates_trace (env : Env) (w : World) :
    (openCandidates env w).trace =
      w.trace ++ (triedNames env candidateNames).map (fun n => Event.dlopen n RTLD_LAZY) := by
  simp only [openCandidates, openInto, dlopen, triedNames, candidateNames, World.log]
  split_ifs <;> simp_all

theorem openCandidates_getSym (env : Env) (w : World) (t : Sym) :
    (openCandidates env w).getSym t = w.getSym t := by
  simp only [openCandidates, openInto, dlopen, World.log]
  split_ifs <;> cases t <;> rfl

/-- When no candidate opens, the three attempts only extend the trace and
leave a libdl error message pending. -/
theorem openCandidates_none (env : Env) (w : World)
    (h : firstOpened env candidateNames = 0) :
    openCandidates env w =
      { w with
        dlopenHandle := 0
        dlerrorPending := true
        trace := w.trace ++ candidateNames.map (fun n => Event.dlopen n RTLD_LAZY) } := by
  simp only [firstOpened, candidateNames] at h
  simp only [openCandidates, openInto, dlopen, candidateNames, World.log]
  split_ifs at h ⊢ <;> simp_all

/-- Unfolding of `LibSensors_init` on an unbound state. -/
theorem init_unbound (env : Env) (w : World) (h0 : w.dlopenHandle = 0) :
    LibSensors_init env w =
      if firstOpened env candidateNames = 0 then some (-1, openCandidates env w)
      else if (resolveAll env requiredSymbols (dlerror (openCandidates env w)).2).1 = true then
        some (env.sensors_init,
          (resolveAll env requiredSymbols (dlerror (openCandidates env w)).2).2.log
            (Event.sensors_init
              (resolveAll env requiredSymbols (dlerror (openCandidates env w)).2).2.sym_sensors_init
              0))
      else
        some (-1,
          { dlclose (firstOpened env candidateNames)
              (resolveAll env requiredSymbols (dlerror (openCandidates env w)).2).2 with
            dlopenHandle := 0 }) := by
  have hh := openCandidates_handle env w
  have hr : (resolveAll env requiredSymbols (dlerror (openCandidates env w)).2).2.dlopenHandle
      = firstOpened env candidateNames := by
    rw [resolveAll_handle]; simpa [dlerror, World.log] using hh
  simp only [LibSensors_init, h0, if_true]
  by_cases hf : firstOpened env candidateNames = 0
  · simp [hf, hh, dlfailure]
  · simp only [hh, hf, if_false]
    by_cases hk : (resolveAll env requiredSymbols (dlerror (openCandidates env w)).2).1 = true
    · simp only [hk, if_true]
      have := (resolveAll_ok env requiredSymbols _ hk).1 Sym.sensors_init (by simp [requiredSymbols])
      simp only [World.getSym] at this
      simp [call_sensors_init, this]
    · simp [hk, dlfailure, hr, hf]

/-! ## The temperature refresh leaves the binding alone -/

theorem readTemperature_binding (env : Env) (filePath : String) (w : World) :
    ∃ tr, (readTemperatureFromFile env filePath w).2 = { w with trace := tr } := by
  unfold readTemperatureFromFile
  cases env.file filePath with
  | absent => exact ⟨_, rfl⟩
  | readError => exact ⟨_, rfl⟩
  | content bytes => dsimp only; split_ifs <;> exact ⟨_, rfl⟩

theorem getCPUTemperatures_binding (env : Env) (cpus cpus1 : List CPUData)
    (existingCPUs activeCPUs : ℕ) (w w1 : World)
    (h : LibSensors_getCPUTemperatures env cpus existingCPUs activeCPUs w =
      Except.ok (cpus1, w1)) :
    ∃ tr, w1 = { w with trace := tr } := by
  by_cases ha : existingCPUs > 0 ∧ existingCPUs < 16384
  · by_cases hm : env.mallocOk = true
    · simp only [LibSensors_getCPUTemperatures, ha, hm, not_true_eq_false, if_false] at h
      obtain ⟨tr, htr⟩ := readTemperature_binding env THERMAL_ZONE_PATH
        (w.log (Event.malloc ((existingCPUs + 1) * 8)))
      generalize copyOut _ (List.range (existingCPUs + 1)) cpus = r at h
      cases r with
      | error f => cases h
      | ok c =>
        simp only [and_self, not_true_eq_false, if_false, Except.ok.injEq, Prod.mk.injEq] at h
        rw [← h.2, htr]
        exact ⟨_, rfl⟩
    · simp [LibSensors_getCPUTemperatures, ha, hm] at h
      rw [← h.2]
      exact ⟨_, rfl⟩
  · simp [LibSensors_getCPUTemperatures, ha] at h

/-! ## The binding invariant -/

theorem allResolved_iff (w : World) :
    w.allResolved ↔
      w.sym_sensors_init ≠ 0 ∧ w.sym_sensors_cleanup ≠ 0 ∧
      w.sym_sensors_get_detected_chips ≠ 0 ∧ w.sym_sensors_get_features ≠ 0 ∧
      w.sym_sensors_get_subfeature ≠ 0 ∧ w.sym_sensors_get_value ≠ 0 := by
  simp [World.allResolved, requiredSymbols, World.getSym]

theorem init_preserves (env : Env) (w : World) (r : Int) (w1 : World)
    (hinv : w.dlopenHandle ≠ 0 → w.allResolved)
    (h : LibSensors_init env w = some (r, w1)) :
    w1.dlopenHandle ≠ 0 → w1.allResolved := by
  by_cases h0 : w.dlopenHandle = 0
  · rw [init_unbound env w h0] at h
    split_ifs at h with hf hk
    · simp only [Option.some.injEq, Prod.mk.injEq] at h
      intro hne
      rw [← h.2, openCandidates_handle, hf] at hne
      exact absurd rfl hne
    · simp only [Option.some.injEq, Prod.mk.injEq] at h
      intro _
      have hall := (resolveAll_ok env requiredSymbols _ hk).1
      rw [← h.2]
      intro s hs
      have := hall s hs
      cases s <;> simpa [World.getSym, World.log] using this
    · simp only [Option.some.injEq, Prod.mk.injEq] at h
      intro hne
      rw [← h.2] at hne
      exact absurd rfl hne
  · simp only [LibSensors_init, h0, if_false, call_sensors_init] at h
    split_ifs at h
    simp only [Option.some.injEq, Prod.mk.injEq] at h
    intro _
    have := (allResolved_iff w).mp (hinv h0)
    rw [← h.2]
    exact (allResolved_iff _).mpr (by simpa [World.log] using this)

theorem cleanup_unbinds (w w1 : World) (h : LibSensors_cleanup w = some w1) :
    w1.dlopenHandle = 0 := by
  by_cases h0 : w.dlopenHandle = 0
  · simp only [LibSensors_cleanup, h0, ne_eq, not_true_eq_false, if_false,
      Option.some.injEq] at h
    rw [← h]; exact h0
  · simp only [LibSensors_cleanup, ne_eq, h0, not_false_eq_true, if_true, call_sensors_cleanup] at h
    split_ifs at h <;> simp at h
    rw [← h]

theorem reload_preserves (env : Env) (w : World) (r : Int) (w1 : World)
    (hinv : w.dlopenHandle ≠ 0 → w.allResolved)
    (h : LibSensors_reload env w = some (r, w1)) :
    w1.dlopenHandle ≠ 0 → w1.allResolved := by
  by_cases h0 : w.dlopenHandle = 0
  · simp only [LibSensors_reload, h0, if_true, Option.some.injEq, Prod.mk.injEq] at h
    intro hne
    rw [← h.2] at hne
    exact absurd h0 hne
  · have hall := (allResolved_iff w).mp (hinv h0)
    simp only [LibSensors_reload, h0, if_false, call_sensors_cleanup, hall.2.1,
      Option.some_bind, call_sensors_init, World.log, hall.1, Option.some.injEq,
      Prod.mk.injEq] at h
    intro _
    rw [← h.2]
    exact (allResolved_iff _).mpr hall

/-- In every reachable state a non-null handle comes with six non-null
symbol pointers. -/
theorem reachable_bound (w : World) (hr : Reachable w) :
    w.dlopenHandle ≠ 0 → w.allResolved := by
  induction hr with
  | start => intro h; exact absurd rfl h
  | step env op _ hrun ih =>
    cases op with
    | init =>
      simp only [Op.run, Option.map_eq_some', Prod.exists] at hrun
      obtain ⟨r, w2, hrun, rfl⟩ := hrun
      exact init_preserves env _ r _ ih hrun
    | cleanup =>
      intro hne
      exact absurd (cleanup_unbinds _ _ hrun) hne
    | reload =>
      simp only [Op.run, Option.map_eq_some', Prod.exists] at hrun
      obtain ⟨r, w2, hrun, rfl⟩ := hrun
      exact reload_preserves env _ r _ ih hrun
  | refresh env cpus cpus1 existingCPUs activeCPUs _ hrun ih =>
    obtain ⟨tr, hb⟩ := getCPUTemperatures_binding env cpus cpus1 existingCPUs activeCPUs _ _ hrun
    intro hne
    rw [hb] at hne ⊢
    exact (allResolved_iff _).mpr ((allResolved_iff _).mp (ih hne))

/-- No lifecycle call on a reachable state goes through a null pointer: every
call returns. -/
theorem run_total (w : World) (hr : Reachable w) (env : Env) (op : Op) :
    (op.run env w).isSome = true := by
  have hinv := reachable_bound w hr
  by_cases h0 : w.dlopenHandle = 0
  · cases op with
    | init =>
      rw [Op.run, init_unbound env w h0]
      split_ifs <;> rfl
    | cleanup => simp [Op.run, LibSensors_cleanup, h0]
    | reload => simp [Op.run, LibSensors_reload, h0]
  · have hall := (allResolved_iff w).mp (hinv h0)
    cases op with
    | init => simp [Op.run, LibSensors_init, h0, call_sensors_init, hall.1]
    | cleanup => simp [Op.run, LibSensors_cleanup, h0, call_sensors_cleanup, hall.2.1]
    | reload =>
      simp [Op.run, LibSensors_reload, h0, call_sensors_cleanup, call_sensors_init,
        hall.1, hall.2.1, World.log]

theorem boundWorld_reachable : Reachable boundWorld :=
  Reachable.step sampleEnv Op.init Reachable.start (by decide)

/-- Trace of the binding phase on an unbound state: the `dlopen` attempts,
the clearing `dlerror()`, then only `dlsym` on the opened handle and `dlerror`. -/
theorem bind_trace (env : Env) (w : World) :
    ∃ evs,
      (resolveAll env requiredSymbols (dlerror (openCandidates env w)).2).2.trace =
        w.trace ++ (triedNames env candidateNames).map (fun n => Event.dlopen n RTLD_LAZY)
          ++ (Event.dlerror :: evs) ∧
      ∀ e ∈ evs,
        (∃ n, e = Event.dlsym (firstOpened env candidateNames) n) ∨ e = Event.dlerror := by
  obtain ⟨evs, h, p⟩ := resolveAll_trace env requiredSymbols (dlerror (openCandidates env w)).2
  refine ⟨evs, ?_, ?_⟩
  · rw [h]
    simp [dlerror, World.log, openCandidates_trace]
  · intro e he
    have := p e he
    simpa [dlerror, World.log, openCandidates_handle] using this

/-! ## Lifecycle claims -/

/-- Claim C7: called on a reachable state whose binding is active,
`LibSensors_init` opens nothing and resolves nothing: the handle and the six
symbol pointers stay as they are, the single new event is the call
`sym_sensors_init(NULL)`, and the return value is the status of that call. -/
theorem init_when_bound_only_reinitializes (env : Env) (w : World)
    (hr : Reachable w) (hb : w.dlopenHandle ≠ 0) :
    w.sym_sensors_init ≠ 0 ∧
    LibSensors_init env w =
      some (env.sensors_init,
        { w with trace := w.trace ++ [Event.sensors_init w.sym_sensors_init 0] }) := by
  have hall := (allResolved_iff w).mp (reachable_bound w hr hb)
  refine ⟨hall.1, ?_⟩
  simp [LibSensors_init, hb, call_sensors_init, hall.1, World.log]

/-- Witness for C7: a second `LibSensors_init` right after a successful one. -/
theorem init_when_bound_only_reinitializes_witness :
    boundWorld.sym_sensors_init ≠ 0 ∧
    LibSensors_init sampleEnv boundWorld =
      some (sampleEnv.sensors_init,
        { boundWorld with
          trace := boundWorld.trace ++ [Event.sensors_init boundWorld.sym_sensors_init 0] }) :=
  init_when_bound_only_reinitializes sampleEnv boundWorld boundWorld_reachable (by decide)

/-- Claim C8: with no binding, `LibSensors_reload` returns `-1`, its only
effect is the assignment `errno = ENOTSUP` (no library call, state otherwise
unchanged); with a binding active (reachable state) it calls
`sym_sensors_cleanup()` and then `sym_sensors_init(NULL)`, once each and in
that order, without `dlopen`, `dlsym` or `dlclose`, keeps handle and symbols,
and returns the status of the initialize call. -/
theorem reload_not_bound_or_cleanup_then_init :
    (∀ (env : Env) (w : World), w.dlopenHandle = 0 →
      LibSensors_reload env w =
        some (-1, { w with trace := w.trace ++ [Event.set_errno ENOTSUP] })) ∧
    (∀ (env : Env) (w : World), Reachable w → w.dlopenHandle ≠ 0 →
      LibSensors_reload env w =
        some (env.sensors_init,
          { w with trace := w.trace ++
              [Event.sensors_cleanup w.sym_sensors_cleanup,
               Event.sensors_init w.sym_sensors_init 0] })) := by
  constructor
  · intro env w h0
    simp [LibSensors_reload, h0, World.log]
  · intro env w hr hb
    have hall := (allResolved_iff w).mp (reachable_bound w hr hb)
    simp [LibSensors_reload, hb, call_sensors_cleanup, call_sensors_init, hall.1, hall.2.1,
      World.log]

/-- Witness for C8: reload at program start, and reload of the bound sample
state. -/
theorem reload_not_bound_or_cleanup_then_init_witness :
    LibSensors_reload sampleEnv World.initial =
        some (-1, { World.initial with
          trace := World.initial.trace ++ [Event.set_errno ENOTSUP] }) ∧
    LibSensors_reload sampleEnv boundWorld =
        some (sampleEnv.sensors_init,
          { boundWorld with trace := boundWorld.trace ++
              [Event.sensors_cleanup boundWorld.sym_sensors_cleanup,
               Event.sensors_init boundWorld.sym_sensors_init 0] }) :=
  ⟨reload_not_bound_or_cleanup_then_init.1 sampleEnv World.initial rfl,
   reload_not_bound_or_cleanup_then_init.2 sampleEnv boundWorld boundWorld_reachable
     (by decide)⟩

/-- Claim C9: on every reachable state `LibSensors_cleanup` returns with
`dlopenHandle` null; it calls `sym_sensors_cleanup()` (followed by `dlclose`
of the handle) exactly when a binding was active and otherwise changes
nothing; and running it again on its result changes nothing more. -/
theorem cleanup_unbinds_and_is_idempotent (w : World) (hr : Reachable w) :
    ∃ w1, LibSensors_cleanup w = some w1 ∧ w1.dlopenHandle = 0 ∧
      (w.dlopenHandle ≠ 0 →
        w1 = { w with
                dlopenHandle := 0
                trace := w.trace ++
                  [Event.sensors_cleanup w.sym_sensors_cleanup,
                   Event.dlclose w.dlopenHandle] }) ∧
      (w.dlopenHandle = 0 → w1 = w) ∧
      ((∃ fn, Event.sensors_cleanup fn ∈ newEvents w w1) ↔ w.dlopenHandle ≠ 0) ∧
      LibSensors_cleanup w1 = some w1 := by
  by_cases h0 : w.dlopenHandle = 0
  · refine ⟨w, ?_, h0, fun h => absurd h0 h, fun _ => rfl, ?_, ?_⟩
    · simp [LibSensors_cleanup, h0]
    · simp [newEvents, h0]
    · simp [LibSensors_cleanup, h0]
  · have hall := (allResolved_iff w).mp (reachable_bound w hr h0)
    refine ⟨_, ?_, ?_, fun _ => rfl, fun h => absurd h h0, ?_, ?_⟩
    · simp [LibSensors_cleanup, h0, call_sensors_cleanup, hall.2.1, dlclose, World.log]
    · rfl
    · simp [newEvents, h0]
    · simp [LibSensors_cleanup]

/-- Witness for C9: cleanup of the bound sample state. -/
theorem cleanup_unbinds_and_is_idempotent_witness :
    ∃ w1, LibSensors_cleanup boundWorld = some w1 ∧ w1.dlopenHandle = 0 ∧
      (boundWorld.dlopenHandle ≠ 0 →
        w1 = { boundWorld with
                dlopenHandle := 0
                trace := boundWorld.trace ++
                  [Event.sensors_cleanup boundWorld.sym_sensors_cleanup,
                   Event.dlclose boundWorld.dlopenHandle] }) ∧
      (boundWorld.dlopenHandle = 0 → w1 = boundWorld) ∧
      ((∃ fn, Event.sensors_cleanup fn ∈ newEvents boundWorld w1) ↔
        boundWorld.dlopenHandle ≠ 0) ∧
      LibSensors_cleanup w1 = some w1 :=
  cleanup_unbinds_and_is_idempotent boundWorld boundWorld_reachable

/-- Claim C10: on an unbound state `LibSensors_init` returns, and its new
events start with `dlopen` of the candidate names in the order
`libsensors.so`, `libsensors.so.5`, `libsensors.so.4`, up to and including
the first that opens; no `dlopen` follows; every `dlsym` uses the handle of
that first name; the handle left in `dlopenHandle` is that handle or null,
and it is that handle (with the initialize status returned) when all six
symbols resolve; when none of the names opens the result is `-1`, nothing
follows the three `dlopen` attempts, the handle stays null and the symbol
pointers are untouched. -/
theorem init_tries_candidates_in_order (env : Env) (w : World)
    (h0 : w.dlopenHandle = 0) :
    ∃ r w1 evs, LibSensors_init env w = some (r, w1) ∧
      w1.trace = w.trace ++
        (triedNames env candidateNames).map (fun n => Event.dlopen n RTLD_LAZY) ++ evs ∧
      triedNames env candidateNames =
        (if env.dlopen "libsensors.so" ≠ 0 then ["libsensors.so"]
         else if env.dlopen "libsensors.so.5" ≠ 0 then ["libsensors.so", "libsensors.so.5"]
         else ["libsensors.so", "libsensors.so.5", "libsensors.so.4"]) ∧
      firstOpened env candidateNames =
        (if env.dlopen "libsensors.so" ≠ 0 then env.dlopen "libsensors.so"
         else if env.dlopen "libsensors.so.5" ≠ 0 then env.dlopen "libsensors.so.5"
         else env.dlopen "libsensors.so.4") ∧
      (∀ e ∈ evs, e.isDlopen = false ∧
        ∀ h n, e = Event.dlsym h n → h = firstOpened env candidateNames) ∧
      (w1.dlopenHandle = firstOpened env candidateNames ∨ w1.dlopenHandle = 0) ∧
      (firstOpened env candidateNames ≠ 0 →
        (∀ s ∈ requiredSymbols, ∃ a, a ≠ 0 ∧
          env.dlsym (firstOpened env candidateNames) s.name = some a) →
        w1.dlopenHandle = firstOpened env candidateNames ∧ r = env.sensors_init) ∧
      (firstOpened env candidateNames = 0 →
        r = -1 ∧ evs = [] ∧ w1.dlopenHandle = 0 ∧ ∀ t, w1.getSym t = w.getSym t) := by
  have hnames : triedNames env candidateNames =
        (if env.dlopen "libsensors.so" ≠ 0 then ["libsensors.so"]
         else if env.dlopen "libsensors.so.5" ≠ 0 then ["libsensors.so", "libsensors.so.5"]
         else ["libsensors.so", "libsensors.so.5", "libsensors.so.4"]) := by
    simp only [triedNames, candidateNames]
    split_ifs <;> rfl
  have hfirst : firstOpened env candidateNames =
        (if env.dlopen "libsensors.so" ≠ 0 then env.dlopen "libsensors.so"
         else if env.dlopen "libsensors.so.5" ≠ 0 then env.dlopen "libsensors.so.5"
         else env.dlopen "libsensors.so.4") := by
    simp only [firstOpened, candidateNames]
    split_ifs <;> simp_all
  obtain ⟨evs, ht, hp⟩ := bind_trace env w
  have hev : ∀ e ∈ Event.dlerror :: evs, e.isDlopen = false ∧
      ∀ h n, e = Event.dlsym h n → h = firstOpened env candidateNames := by
    intro e he
    rcases List.mem_cons.mp he with rfl | he
    · exact ⟨rfl, fun h n hc => by cases hc⟩
    · rcases hp e he with ⟨n, rfl⟩ | rfl
      · exact ⟨rfl, fun h n hc => by cases hc; rfl⟩
      · exact ⟨rfl, fun h n hc => by cases hc⟩
  rw [init_unbound env w h0]
  by_cases hf : firstOpened env candidateNames = 0
  · simp only [hf, if_true]
    refine ⟨-1, _, [], rfl, ?_, hnames, hf ▸ hfirst, by simp, Or.inl ?_, fun h => absurd rfl h,
      fun _ => ⟨rfl, rfl, ?_, fun t => openCandidates_getSym env w t⟩⟩
    · simp [openCandidates_trace]
    · rw [openCandidates_handle, hf]
    · rw [openCandidates_handle, hf]
  · simp only [hf, if_false]
    by_cases hk : (resolveAll env requiredSymbols (dlerror (openCandidates env w)).2).1 = true
    · simp only [hk, if_true]
      have hh : (resolveAll env requiredSymbols (dlerror (openCandidates env w)).2).2.dlopenHandle
          = firstOpened env candidateNames := by
        rw [resolveAll_handle]
        simp [dlerror, World.log, openCandidates_handle]
      refine ⟨_, _, Event.dlerror :: evs ++ [Event.sensors_init
          (resolveAll env requiredSymbols (dlerror (openCandidates env w)).2).2.sym_sensors_init
          0], rfl, ?_, hnames, hfirst,
        ?_, Or.inl ?_, fun _ _ => ⟨?_, rfl⟩, fun h => h.elim⟩
      · simp [World.log, ht]
      · intro e he
        rcases List.mem_append.mp he with he | he
        · exact hev e he
        · rw [List.mem_singleton.mp he]
          exact ⟨rfl, fun h n hc => by cases hc⟩
      · simpa [World.log] using hh
      · simpa [World.log] using hh
    · have hk1 : (resolveAll env requiredSymbols (dlerror (openCandidates env w)).2).1 = false := by
        simpa using hk
      simp only [hk1, Bool.false_eq_true, if_false]
      refine ⟨_, _, Event.dlerror :: evs ++ [Event.dlclose (firstOpened env candidateNames)],
        rfl, ?_, hnames, hfirst, ?_, Or.inr rfl, fun _ hs => ?_, fun h => h.elim⟩
      · simp [dlclose, World.log, ht]
      · intro e he
        rcases List.mem_append.mp he with he | he
        · exact hev e he
        · rw [List.mem_singleton.mp he]
          exact ⟨rfl, fun h n hc => by cases hc⟩
      · exfalso
        have := resolveAll_succeeds env requiredSymbols (dlerror (openCandidates env w)).2
          (by simp [dlerror])
          (by simpa [dlerror, World.log, openCandidates_handle] using hs)
        rw [hk1] at this
        cases this

/-- Witness for C10: only `libsensors.so.5` opens. -/
theorem init_tries_candidates_in_order_witness :
    ∃ r w1 evs, LibSensors_init sampleEnv World.initial = some (r, w1) ∧
      w1.trace = World.initial.trace ++
        (triedNames sampleEnv candidateNames).map (fun n => Event.dlopen n RTLD_LAZY) ++ evs ∧
      triedNames sampleEnv candidateNames =
        (if sampleEnv.dlopen "libsensors.so" ≠ 0 then ["libsensors.so"]
         else if sampleEnv.dlopen "libsensors.so.5" ≠ 0 then
           ["libsensors.so", "libsensors.so.5"]
         else ["libsensors.so", "libsensors.so.5", "libsensors.so.4"]) ∧
      firstOpened sampleEnv candidateNames =
        (if sampleEnv.dlopen "libsensors.so" ≠ 0 then sampleEnv.dlopen "libsensors.so"
         else if sampleEnv.dlopen "libsensors.so.5" ≠ 0 then sampleEnv.dlopen "libsensors.so.5"
         else sampleEnv.dlopen "libsensors.so.4") ∧
      (∀ e ∈ evs, e.isDlopen = false ∧
        ∀ h n, e = Event.dlsym h n → h = firstOpened sampleEnv candidateNames) ∧
      (w1.dlopenHandle = firstOpened sampleEnv candidateNames ∨ w1.dlopenHandle = 0) ∧
      (firstOpened sampleEnv candidateNames ≠ 0 →
        (∀ s ∈ requiredSymbols, ∃ a, a ≠ 0 ∧
          sampleEnv.dlsym (firstOpened sampleEnv candidateNames) s.name = some a) →
        w1.dlopenHandle = firstOpened sampleEnv candidateNames ∧ r = sampleEnv.sensors_init) ∧
      (firstOpened sampleEnv candidateNames = 0 →
        r = -1 ∧ evs = [] ∧ w1.dlopenHandle = 0 ∧
        ∀ t, w1.getSym t = World.initial.getSym t) :=
  init_tries_candidates_in_order sampleEnv World.initial rfl

/-! ## Lemmas on binary64 rounding -/

theorem roundHalfEven_intCast (z : ℤ) : roundHalfEven (z : ℚ) = z := by
  simp [roundHalfEven]

/-- Natural numbers below `2^53` are binary64 values: rounding keeps them. -/
theorem ofRat_natCast (k : ℕ) (hk : k < 2 ^ 53) : Double.ofRat (k : ℚ) = Double.fin k := by
  rcases Nat.eq_zero_or_pos k with rfl | hpos
  · simp [Double.ofRat]
  · have hk0 : (k : ℚ) ≠ 0 := by exact_mod_cast hpos.ne'
    have hL : Nat.log 2 k < 53 := Nat.log_lt_of_lt_pow hpos.ne' hk
    have habs : |(k : ℚ)| = k := abs_of_nonneg (by positivity)
    have hlog : Int.log 2 |(k : ℚ)| = (Nat.log 2 k : ℤ) := by
      rw [habs, Int.log_natCast]
    have hmax : max (Int.log 2 |(k : ℚ)|) (-1022) = (Nat.log 2 k : ℤ) := by
      rw [hlog]; omega
    have hulp : (2 : ℚ) ^ ((Nat.log 2 k : ℤ) - 52) = ((2 : ℚ) ^ (52 - Nat.log 2 k))⁻¹ := by
      rw [← zpow_natCast, ← zpow_neg]
      congr 1
      omega
    have hdiv : (k : ℚ) / ((2 : ℚ) ^ (52 - Nat.log 2 k))⁻¹
        = (((k * 2 ^ (52 - Nat.log 2 k) : ℕ) : ℤ) : ℚ) := by
      push_cast
      rw [div_inv_eq_mul]
    have hr : ((((k * 2 ^ (52 - Nat.log 2 k) : ℕ) : ℤ) : ℚ))
        * ((2 : ℚ) ^ (52 - Nat.log 2 k))⁻¹ = k := by
      push_cast
      field_simp
    have hsmall : ¬ ((2 : ℚ) ^ (1024 : ℕ) ≤ |(k : ℚ)|) := by
      rw [habs, not_le]
      have h1 : (k : ℚ) < (2 : ℚ) ^ (53 : ℕ) := by exact_mod_cast hk
      have h2 : (2 : ℚ) ^ (53 : ℕ) ≤ (2 : ℚ) ^ (1024 : ℕ) :=
        pow_le_pow_right₀ (by norm_num) (by norm_num)
      exact lt_of_lt_of_le h1 h2
    simp only [Double.ofRat, hk0, if_false, hmax, hulp, hdiv, roundHalfEven_intCast, hr, hsmall]

theorem roundHalfEven_le (x : ℚ) : |(roundHalfEven x : ℚ) - x| ≤ 1 / 2 := by
  have h1 := Int.floor_le x
  have h2 := Int.lt_floor_add_one x
  unfold roundHalfEven
  split_ifs <;> push_cast <;> rw [abs_le] <;> constructor <;> linarith

theorem roundHalfEven_lt (x : ℚ) (hx : x - ⌊x⌋ ≠ 1 / 2) :
    |(roundHalfEven x : ℚ) - x| < 1 / 2 := by
  have h1 := Int.floor_le x
  have h2 := Int.lt_floor_add_one x
  unfold roundHalfEven
  split_ifs with ha hb
  · rw [abs_lt]; constructor <;> linarith
  · push_cast; rw [abs_lt]; constructor <;> linarith
  · exact absurd (le_antisymm (not_lt.mp hb) (not_lt.mp ha)) hx
  · exact absurd (le_antisymm (not_lt.mp hb) (not_lt.mp ha)) hx

/-- An integer other than the rounded one is farther away. -/
theorem roundHalfEven_nearest (x : ℚ) (hx : x - ⌊x⌋ ≠ 1 / 2) (k : ℤ)
    (hk : k ≠ roundHalfEven x) :
    |(roundHalfEven x : ℚ) - x| < |(k : ℚ) - x| := by
  have h := roundHalfEven_lt x hx
  have hd : (1 : ℚ) ≤ |(k : ℚ) - (roundHalfEven x : ℚ)| := by
    have : (1 : ℤ) ≤ |k - roundHalfEven x| := Int.one_le_abs (sub_ne_zero.mpr hk)
    exact_mod_cast this
  have htri : |(k : ℚ) - (roundHalfEven x : ℚ)| ≤ |(k : ℚ) - x| + |(roundHalfEven x : ℚ) - x| := by
    have := abs_sub_le (k : ℚ) x (roundHalfEven x : ℚ)
    rwa [abs_sub_comm x (roundHalfEven x : ℚ)] at this
  linarith

theorem two_zpow_pos (e : ℤ) : (0 : ℚ) < (2 : ℚ) ^ e := zpow_pos (by norm_num) e

/-- A binary64 value that is at least `2^e` is a whole multiple of `2^(e-52)`. -/
theorem binary64_on_grid (r1 : ℚ) (h : isBinary64 r1) (e : ℤ) (hge : (2 : ℚ) ^ e ≤ r1) :
    ∃ k : ℤ, r1 = k * (2 : ℚ) ^ (e - 52) := by
  obtain ⟨m, e1, hm, _, _, hr⟩ := h
  have hmq : (m : ℚ) < (2 : ℚ) ^ (53 : ℤ) := by
    have h1 : m < 2 ^ 53 := lt_of_le_of_lt (le_abs_self m) hm
    have h2 : (m : ℚ) < ((2 ^ 53 : ℤ) : ℚ) := by exact_mod_cast h1
    have h3 : ((2 ^ 53 : ℤ) : ℚ) = (2 : ℚ) ^ (53 : ℤ) := by norm_num
    rwa [h3] at h2
  have hlt : (2 : ℚ) ^ e < (2 : ℚ) ^ (53 + e1) := by
    calc (2 : ℚ) ^ e ≤ r1 := hge
      _ = m * (2 : ℚ) ^ e1 := hr
      _ < (2 : ℚ) ^ (53 : ℤ) * (2 : ℚ) ^ e1 :=
          mul_lt_mul_of_pos_right hmq (two_zpow_pos e1)
      _ = (2 : ℚ) ^ (53 + e1) := by rw [zpow_add₀ (by norm_num)]
  have he : e < 53 + e1 := (zpow_lt_zpow_iff_right₀ (by norm_num : (1 : ℚ) < 2)).mp hlt
  have hd : e1 = ((e1 - (e - 52)).toNat : ℤ) + (e - 52) := by
    rw [Int.toNat_of_nonneg (by omega)]
    ring
  refine ⟨m * 2 ^ (e1 - (e - 52)).toNat, ?_⟩
  rw [hr]
  conv_lhs => rw [hd]
  rw [zpow_add₀ (by norm_num), zpow_natCast]
  push_cast
  ring

/-- Rounding in the normal range without a tie: the result is the scaled
nearest integer, and every other binary64 value is strictly farther from
the exact value. -/
theorem scaled_round_nearest (q : ℚ) (e : ℤ) (hlo : (2 : ℚ) ^ e ≤ q)
    (hhi : q < (2 : ℚ) ^ (e + 1))
    (htie : q / (2 : ℚ) ^ (e - 52) - ⌊q / (2 : ℚ) ^ (e - 52)⌋ ≠ 1 / 2)
    (r1 : ℚ) (h1 : isBinary64 r1)
    (hne : r1 ≠ (roundHalfEven (q / (2 : ℚ) ^ (e - 52)) : ℚ) * (2 : ℚ) ^ (e - 52)) :
    |(roundHalfEven (q / (2 : ℚ) ^ (e - 52)) : ℚ) * (2 : ℚ) ^ (e - 52) - q| < |r1 - q| := by
  have hu : (0 : ℚ) < (2 : ℚ) ^ (e - 52) := two_zpow_pos _
  have hq : q = q / (2 : ℚ) ^ (e - 52) * (2 : ℚ) ^ (e - 52) := by field_simp
  -- distance of a grid point `k * ulp` from `q`
  have hdist : ∀ k : ℤ, |(k : ℚ) * (2 : ℚ) ^ (e - 52) - q| =
      |(k : ℚ) - q / (2 : ℚ) ^ (e - 52)| * (2 : ℚ) ^ (e - 52) := by
    intro k
    conv_lhs => rw [hq]
    rw [← sub_mul, abs_mul, abs_of_pos hu]
  have hnear : ∀ k : ℤ, |(roundHalfEven (q / (2 : ℚ) ^ (e - 52)) : ℚ) * (2 : ℚ) ^ (e - 52) - q|
      ≤ |(k : ℚ) * (2 : ℚ) ^ (e - 52) - q| := by
    intro k
    rw [hdist, hdist]
    apply mul_le_mul_of_nonneg_right _ hu.le
    by_cases hk : k = roundHalfEven (q / (2 : ℚ) ^ (e - 52))
    · rw [hk]
    · exact (roundHalfEven_nearest _ htie k hk).le
  have hpow52 : (2 : ℚ) ^ e = ((2 ^ 52 : ℤ) : ℚ) * (2 : ℚ) ^ (e - 52) := by
    have : ((2 ^ 52 : ℤ) : ℚ) = (2 : ℚ) ^ (52 : ℤ) := by norm_num
    rw [this, ← zpow_add₀ (by norm_num)]
    congr 1
    ring
  have hpow53 : (2 : ℚ) ^ (e + 1) = ((2 ^ 53 : ℤ) : ℚ) * (2 : ℚ) ^ (e - 52) := by
    have : ((2 ^ 53 : ℤ) : ℚ) = (2 : ℚ) ^ (53 : ℤ) := by norm_num
    rw [this, ← zpow_add₀ (by norm_num)]
    congr 1
    ring
  rcases lt_or_le r1 ((2 : ℚ) ^ e) with hA | hA
  · -- below the binade: the grid point `2^e` is already closer
    have h2 := hnear (2 ^ 52)
    rw [← hpow52] at h2
    have h3 : |(2 : ℚ) ^ e - q| = q - (2 : ℚ) ^ e := by
      rw [abs_sub_comm]; exact abs_of_nonneg (by linarith)
    have h4 : |r1 - q| = q - r1 := by
      rw [abs_sub_comm]; exact abs_of_nonneg (by linarith)
    rw [h4]
    rw [h3] at h2
    linarith
  · rcases lt_or_le ((2 : ℚ) ^ (e + 1)) r1 with hB | hB
    · have h2 := hnear (2 ^ 53)
      rw [← hpow53] at h2
      have h3 : |(2 : ℚ) ^ (e + 1) - q| = (2 : ℚ) ^ (e + 1) - q := abs_of_nonneg (by linarith)
      have h4 : |r1 - q| = r1 - q := abs_of_nonneg (by linarith)
      rw [h4]
      rw [h3] at h2
      linarith
    · obtain ⟨k, hk⟩ := binary64_on_grid r1 h1 e hA
      have hkne : k ≠ roundHalfEven (q / (2 : ℚ) ^ (e - 52)) := by
        intro hc
        apply hne
        rw [hk, hc]
      rw [hk, hdist, hdist]
      exact mul_lt_mul_of_pos_right (roundHalfEven_nearest _ htie k hkne) hu

/-- In the normal range the scaled nearest integer is a binary64 value. -/
theorem scaled_round_isBinary64 (q : ℚ) (e : ℤ) (hlo : (2 : ℚ) ^ e ≤ q)
    (hhi : q < (2 : ℚ) ^ (e + 1)) (he1 : -1022 ≤ e) (he2 : e ≤ 1022) :
    isBinary64 ((roundHalfEven (q / (2 : ℚ) ^ (e - 52)) : ℚ) * (2 : ℚ) ^ (e - 52)) ∧
    |(roundHalfEven (q / (2 : ℚ) ^ (e - 52)) : ℚ) * (2 : ℚ) ^ (e - 52)| <
      (2 : ℚ) ^ (1024 : ℕ) := by
  have hu : (0 : ℚ) < (2 : ℚ) ^ (e - 52) := two_zpow_pos _
  have hpow52 : (2 : ℚ) ^ e = (2 : ℚ) ^ (52 : ℕ) * (2 : ℚ) ^ (e - 52) := by
    rw [← zpow_natCast, ← zpow_add₀ (by norm_num)]
    congr 1
    push_cast
    ring
  have hpow53 : (2 : ℚ) ^ (e + 1) = (2 : ℚ) ^ (53 : ℕ) * (2 : ℚ) ^ (e - 52) := by
    rw [← zpow_natCast, ← zpow_add₀ (by norm_num)]
    congr 1
    push_cast
    ring
  have hx1 : (2 : ℚ) ^ (52 : ℕ) ≤ q / (2 : ℚ) ^ (e - 52) := by
    rw [le_div_iff₀ hu, ← hpow52]
    exact hlo
  have hx2 : q / (2 : ℚ) ^ (e - 52) < (2 : ℚ) ^ (53 : ℕ) := by
    rw [div_lt_iff₀ hu, ← hpow53]
    exact hhi
  have hr := abs_le.mp (roundHalfEven_le (q / (2 : ℚ) ^ (e - 52)))
  generalize roundHalfEven (q / (2 : ℚ) ^ (e - 52)) = M at hr ⊢
  have hM1 : (2 : ℤ) ^ 52 ≤ M := by
    have : ((2 ^ 52 - 1 : ℤ) : ℚ) < (M : ℚ) := by
      push_cast
      linarith [hr.1]
    have := Int.cast_lt.mp this
    omega
  have hM2 : M ≤ (2 : ℤ) ^ 53 := by
    have : (M : ℚ) < ((2 ^ 53 + 1 : ℤ) : ℚ) := by
      push_cast
      linarith [hr.2]
    have := Int.cast_lt.mp this
    omega
  have hMq : (0 : ℚ) ≤ (M : ℚ) := by
    have : (0 : ℤ) ≤ M := by omega
    exact_mod_cast this
  constructor
  · rcases lt_or_eq_of_le hM2 with hlt | heq
    · exact ⟨M, e - 52, by rw [abs_of_nonneg (by omega)]; exact hlt, by omega, by omega, rfl⟩
    · refine ⟨2 ^ 52, e - 51, by norm_num, by omega, by omega, ?_⟩
      rw [heq]
      have : (2 : ℚ) ^ (e - 51) = 2 * (2 : ℚ) ^ (e - 52) := by
        rw [show e - 51 = 1 + (e - 52) by ring, zpow_add₀ (by norm_num), zpow_one]
      rw [this]
      push_cast
      ring
  · rw [abs_of_nonneg (mul_nonneg hMq hu.le)]
    have h1 : (M : ℚ) ≤ (2 : ℚ) ^ (53 : ℕ) := by exact_mod_cast hM2
    have h2 : (M : ℚ) * (2 : ℚ) ^ (e - 52) ≤ (2 : ℚ) ^ (e + 1) := by
      rw [hpow53]
      exact mul_le_mul_of_nonneg_right h1 hu.le
    have h3 : (2 : ℚ) ^ (e + 1) < (2 : ℚ) ^ ((1024 : ℕ) : ℤ) :=
      zpow_lt_zpow_right₀ (by norm_num) (by push_cast; omega)
    rw [zpow_natCast] at h3
    linarith

/-- Value of `Double.ofRat` on a positive number of the normal range. -/
theorem ofRat_normal (q : ℚ) (hq : 0 < q) (he1 : -1022 ≤ Int.log 2 q)
    (he2 : Int.log 2 q ≤ 1022) :
    Double.ofRat q = Double.fin
      ((roundHalfEven (q / (2 : ℚ) ^ (Int.log 2 q - 52)) : ℚ) * (2 : ℚ) ^ (Int.log 2 q - 52)) := by
  have hlo : (2 : ℚ) ^ Int.log 2 q ≤ q := by
    have := Int.zpow_log_le_self (b := 2) (r := q) (by norm_num) hq
    exact_mod_cast this
  have hhi : q < (2 : ℚ) ^ (Int.log 2 q + 1) := by
    have := Int.lt_zpow_succ_log_self (b := 2) (by norm_num) q
    exact_mod_cast this
  have hsmall := (scaled_round_isBinary64 q _ hlo hhi he1 he2).2
  have habs : |q| = q := abs_of_pos hq
  have hmax : max (Int.log 2 q) (-1022) = Int.log 2 q := max_eq_left he1
  simp only [Double.ofRat, hq.ne', if_false, habs, hmax, not_le.mpr hsmall]

/-- The binade of `n / 1000` for `1 ≤ n < 10^15`. -/
theorem log_thousandth (n : ℕ) (h0 : 0 < n) (hn : n < 10 ^ 15) :
    -10 ≤ Int.log 2 ((n : ℚ) / 1000) ∧ Int.log 2 ((n : ℚ) / 1000) < 40 := by
  have hq : (0 : ℚ) < (n : ℚ) / 1000 := by positivity
  have h1 : (1 : ℚ) ≤ n := by exact_mod_cast h0
  have h2 : (n : ℚ) < 10 ^ 15 := by exact_mod_cast hn
  constructor
  · apply (Int.zpow_le_iff_le_log (b := 2) (by norm_num) hq).mp
    have : ((2 : ℕ) : ℚ) ^ (-10 : ℤ) = 1 / 1024 := by norm_num
    rw [this]
    rw [div_le_div_iff₀ (by norm_num) (by norm_num)]
    linarith
  · apply (Int.lt_zpow_iff_log_lt (b := 2) (by norm_num) hq).mp
    have : ((2 : ℕ) : ℚ) ^ (40 : ℤ) = 1099511627776 := by norm_num
    rw [this, div_lt_iff₀ (by norm_num)]
    linarith

/-- For `1 ≤ n < 10^15` the quotient `n / 1000` never lies halfway between
two neighbouring binary64 values. -/
theorem thousandth_no_tie (n : ℕ) (e : ℤ) (he : e < 40) :
    (n : ℚ) / 1000 / (2 : ℚ) ^ (e - 52) - ⌊(n : ℚ) / 1000 / (2 : ℚ) ^ (e - 52)⌋ ≠ 1 / 2 := by
  intro h
  have hu : ((49 - e).toNat : ℤ) = 49 - e := Int.toNat_of_nonneg (by omega)
  have hpow : (2 : ℚ) ^ (e - 52) = ((2 : ℚ) ^ (49 - e).toNat * 8)⁻¹ := by
    rw [← zpow_natCast, hu, show e - 52 = -(49 - e + 3) by ring, zpow_neg,
      zpow_add₀ (by norm_num)]
    norm_num
  rw [hpow] at h
  generalize ⌊(n : ℚ) / 1000 / ((2 : ℚ) ^ (49 - e).toNat * 8)⁻¹⌋ = f at h
  have h2 : ((2 * (n * 2 ^ (49 - e).toNat) : ℤ) : ℚ) = ((125 * (2 * f + 1) : ℤ) : ℚ) := by
    push_cast
    field_simp at h
    linarith
  have h3 := Int.cast_injective h2
  omega

/-- The correctly rounded quotient of a natural number below `10^15` by
1000: a binary64 value strictly nearer to `n / 1000` than any other. -/
theorem ofRat_thousandth (n : ℕ) (hn : n < 10 ^ 15) :
    ∃ r : ℚ, Double.ofRat ((n : ℚ) / 1000) = Double.fin r ∧ isBinary64 r ∧
      ∀ r1, isBinary64 r1 → r1 ≠ r → |r - (n : ℚ) / 1000| < |r1 - (n : ℚ) / 1000| := by
  rcases Nat.eq_zero_or_pos n with rfl | h0
  · refine ⟨0, by simp [Double.ofRat], ⟨0, 0, by norm_num, by norm_num, by norm_num, by simp⟩, ?_⟩
    intro r1 _ hne
    simpa using hne
  · have hq : (0 : ℚ) < (n : ℚ) / 1000 := by positivity
    obtain ⟨he1, he2⟩ := log_thousandth n h0 hn
    have hlo : (2 : ℚ) ^ Int.log 2 ((n : ℚ) / 1000) ≤ (n : ℚ) / 1000 := by
      have := Int.zpow_log_le_self (b := 2) (r := (n : ℚ) / 1000) (by norm_num) hq
      exact_mod_cast this
    have hhi : (n : ℚ) / 1000 < (2 : ℚ) ^ (Int.log 2 ((n : ℚ) / 1000) + 1) := by
      have := Int.lt_zpow_succ_log_self (b := 2) (by norm_num) ((n : ℚ) / 1000)
      exact_mod_cast this
    refine ⟨_, ofRat_normal _ hq (by omega) (by omega),
      (scaled_round_isBinary64 _ _ hlo hhi (by omega) (by omega)).1, ?_⟩
    intro r1 h1 hne
    exact scaled_round_nearest _ _ hlo hhi (thousandth_no_tie n _ he2) r1 h1 hne

/-- The number `1 / 1000` is not a binary64 value. -/
theorem one_thousandth_not_binary64 : ¬ isBinary64 (1 / 1000) := by
  rintro ⟨m, e, _, _, _, h⟩
  rcases le_or_lt 0 e with he | he
  · obtain ⟨k, rfl⟩ := Int.eq_ofNat_of_zero_le he
    rw [zpow_natCast] at h
    have h2 : ((1000 * (m * 2 ^ k) : ℤ) : ℚ) = ((1 : ℤ) : ℚ) := by
      push_cast
      linarith
    have h3 := Int.cast_injective h2
    omega
  · obtain ⟨k, hk⟩ := Int.eq_ofNat_of_zero_le (show 0 ≤ -e by omega)
    have hek : e = -(k : ℤ) := by omega
    subst hek
    rw [zpow_neg, zpow_natCast] at h
    have hpos : (0 : ℚ) < (2 : ℚ) ^ k := by positivity
    have h2 : ((1000 * m : ℤ) : ℚ) = ((2 ^ k : ℤ) : ℚ) := by
      push_cast
      field_simp at h
      linarith
    have h3 : (1000 * m : ℤ) = 2 ^ k := Int.cast_injective h2
    have h5 : (5 : ℤ) ∣ 2 ^ k := ⟨200 * m, by rw [← h3]; ring⟩
    have h6 : (5 : ℤ) ∣ 2 := Int.Prime.dvd_pow' (by norm_num) h5
    omega

/-- The binary64 value nearest to `1 / 1000`. -/
theorem ofRat_one_thousandth :
    Double.ofRat (1 / 1000) = Double.fin (1152921504606847 / 1152921504606846976) := by
  have hq : (0 : ℚ) < 1 / 1000 := by norm_num
  have hlog : Int.log 2 ((1 : ℚ) / 1000) = -10 := by
    apply le_antisymm
    · have : Int.log 2 ((1 : ℚ) / 1000) < -9 := by
        apply (Int.lt_zpow_iff_log_lt (b := 2) (by norm_num) hq).mp
        norm_num
      omega
    · apply (Int.zpow_le_iff_le_log (b := 2) (by norm_num) hq).mp
      norm_num
  rw [ofRat_normal _ hq (by rw [hlog]; norm_num) (by rw [hlog]; norm_num), hlog]
  have hx : (1 : ℚ) / 1000 / (2 : ℚ) ^ ((-10 : ℤ) - 52) = 4611686018427387904 / 1000 := by
    norm_num
  have hfloor : ⌊(4611686018427387904 : ℚ) / 1000⌋ = 4611686018427387 := by
    rw [Int.floor_eq_iff]
    constructor <;> norm_num
  have hround : roundHalfEven ((4611686018427387904 : ℚ) / 1000) = 4611686018427388 := by
    unfold roundHalfEven
    rw [hfloor]
    norm_num
  rw [hx, hround]
  norm_num

/-! ## Lemmas on digit strings, `fgets` and `strtod` -/

theorem isDigit_cases (c : Char) (h : c.isDigit = true) :
    c = '0' ∨ c = '1' ∨ c = '2' ∨ c = '3' ∨ c = '4' ∨ c = '5' ∨ c = '6' ∨ c = '7' ∨
    c = '8' ∨ c = '9' := by
  have h1 : 48 ≤ c.val.toNat ∧ c.val.toNat ≤ 57 := by
    simp only [Char.isDigit, Bool.and_eq_true, decide_eq_true_eq, UInt32.le_def] at h
    exact ⟨by simpa using h.1, by simpa using h.2⟩
  have key : ∀ k : ℕ, c.val.toNat = k → ∀ d : Char, d.val.toNat = k → c = d := by
    intro k hk d hd
    apply Char.ext
    apply UInt32.ext
    rw [hk, hd]
  obtain ⟨lo, hi⟩ := h1
  generalize hn : c.val.toNat = n at lo hi
  interval_cases n
  · exact Or.inl (key 48 hn '0' rfl)
  · exact Or.inr (Or.inl (key 49 hn '1' rfl))
  · exact Or.inr (Or.inr (Or.inl (key 50 hn '2' rfl)))
  · exact Or.inr (Or.inr (Or.inr (Or.inl (key 51 hn '3' rfl))))
  · exact Or.inr (Or.inr (Or.inr (Or.inr (Or.inl (key 52 hn '4' rfl)))))
  · exact Or.inr (Or.inr (Or.inr (Or.inr (Or.inr (Or.inl (key 53 hn '5' rfl))))))
  · exact Or.inr (Or.inr (Or.inr (Or.inr (Or.inr (Or.inr (Or.inl (key 54 hn '6' rfl)))))))
  · exact Or.inr (Or.inr (Or.inr (Or.inr (Or.inr (Or.inr (Or.inr (Or.inl (key 55 hn '7' rfl))))))))
  · exact Or.inr (Or.inr (Or.inr (Or.inr (Or.inr (Or.inr (Or.inr (Or.inr
      (Or.inl (key 56 hn '8' rfl)))))))))
  · exact Or.inr (Or.inr (Or.inr (Or.inr (Or.inr (Or.inr (Or.inr (Or.inr
      (Or.inr (key 57 hn '9' rfl)))))))))

theorem digit_facts (c : Char) (h : c.isDigit = true) :
    isspace c = false ∧ c ≠ '-' ∧ c ≠ '+' ∧ c ≠ '.' ∧ c ≠ '\n' ∧ c ≠ 'x' ∧ c ≠ 'X' ∧
    c.toLower ≠ 'i' ∧ c.toLower ≠ 'n' ∧ digitValue c < 10 := by
  rcases isDigit_cases c h with h | h | h | h | h | h | h | h | h | h <;> subst h <;> decide

theorem newline_facts :
    Char.isDigit '\n' = false ∧ '\n' ≠ '.' ∧ '\n' ≠ 'e' ∧ '\n' ≠ 'E' ∧ '\n' ≠ 'x' ∧
    '\n' ≠ 'X' := by
  decide

theorem decimalValue_foldl (a : ℕ) (cs : List Char) :
    cs.foldl (fun acc c => 10 * acc + digitValue c) a =
      a * 10 ^ cs.length + decimalValue cs := by
  induction cs generalizing a with
  | nil => simp [decimalValue]
  | cons c cs ih =>
    simp only [List.foldl_cons, decimalValue, List.length_cons]
    rw [ih (10 * a + digitValue c), ih (10 * 0 + digitValue c)]
    ring

theorem decimalValue_cons (c : Char) (cs : List Char) :
    decimalValue (c :: cs) = digitValue c * 10 ^ cs.length + decimalValue cs := by
  have := decimalValue_foldl (10 * 0 + digitValue c) cs
  simp only [decimalValue, List.foldl_cons] at this ⊢
  rw [this]
  ring

/-- A string of `k` decimal digits denotes a number below `10^k`. -/
theorem decimalValue_lt (ds : List Char) (hd : ∀ c ∈ ds, c.isDigit = true) :
    decimalValue ds < 10 ^ ds.length := by
  induction ds with
  | nil => simp [decimalValue]
  | cons c cs ih =>
    rw [decimalValue_cons, List.length_cons, pow_succ]
    have h1 := (digit_facts c (hd c (List.mem_cons_self _ _))).2.2.2.2.2.2.2.2.2
    have h2 := ih (fun x hx => hd x (List.mem_cons_of_mem _ hx))
    have hp : 0 < 10 ^ cs.length := by positivity
    nlinarith

theorem fgetsChars_append (n : ℕ) (ds tail : List Char)
    (hd : ∀ c ∈ ds, c ≠ '\n') (hlen : ds.length ≤ n) :
    fgetsChars n (ds ++ tail) = ds ++ fgetsChars (n - ds.length) tail := by
  induction ds generalizing n with
  | nil => simp
  | cons c cs ih =>
    cases n with
    | zero => simp at hlen
    | succ n =>
      have hc : c ≠ '\n' := hd c (List.mem_cons_self _ _)
      have := ih n (fun x hx => hd x (List.mem_cons_of_mem _ hx)) (by simpa using hlen)
      simpa [fgetsChars, hc] using this

/-- What `fgets` leaves in the 16-byte buffer for a file holding at most 15
digits, ending there or followed by a newline: the digits, possibly with the
newline. -/
theorem fgetsChars_digits (ds tail : List Char)
    (hd : ∀ c ∈ ds, c.isDigit = true) (hlen : ds.length ≤ 15)
    (ht : tail = [] ∨ ∃ rest, tail = '\n' :: rest) :
    fgetsChars 15 (ds ++ tail) = ds ∨ fgetsChars 15 (ds ++ tail) = ds ++ ['\n'] := by
  rw [fgetsChars_append 15 ds tail (fun c hc => (digit_facts c (hd c hc)).2.2.2.2.1) hlen]
  rcases ht with rfl | ⟨rest, rfl⟩
  · left
    cases h : 15 - ds.length <;> simp [fgetsChars]
  · cases h : 15 - ds.length with
    | zero => left; simp [fgetsChars]
    | succ m => right; simp [fgetsChars]

theorem parseHex_none (s : List Char) (h : ∀ x ∈ s, x ≠ 'x' ∧ x ≠ 'X') :
    parseHex s = none := by
  unfold parseHex
  split
  · rename_i z x body
    have := h x (by simp)
    simp [this.1, this.2]
  · rfl

theorem parseDecimal_digits (ds t : List Char)
    (hd : ∀ c ∈ ds, c.isDigit = true) (hne : ds ≠ [])
    (ht : t = [] ∨ t = ['\n']) :
    parseDecimal (ds ++ t) = some (decimalValue ds : ℚ) := by
  have htake : (ds ++ t).takeWhile Char.isDigit = ds := by
    rw [List.takeWhile_append_of_pos hd]
    rcases ht with rfl | rfl <;> simp [List.takeWhile, newline_facts.1]
  have hdrop : (ds ++ t).dropWhile Char.isDigit = t := by
    rw [List.dropWhile_append_of_pos hd]
    rcases ht with rfl | rfl <;> simp [List.dropWhile, newline_facts.1]
  have hfp : fractionDigits Char.isDigit t = [] := by
    rcases ht with rfl | rfl <;> simp [fractionDigits, newline_facts.2.1]
  have haf : afterFraction Char.isDigit t = t := by
    rcases ht with rfl | rfl <;> simp [afterFraction, newline_facts.2.1]
  have hex : parseExponent 'e' 'E' t = 0 := by
    rcases ht with rfl | rfl <;>
      simp [parseExponent, newline_facts.2.2.1, newline_facts.2.2.2.1]
  unfold parseDecimal
  simp only [htake, hdrop, hfp, haf, hex, hne, false_and, if_false, List.append_nil,
    List.length_nil, Nat.cast_zero, sub_zero, zpow_zero, mul_one]

theorem startsWithIgnoringCase_cons_ne (c a : Char) (rest word : List Char)
    (h : c.toLower ≠ a) : startsWithIgnoringCase (c :: rest) (a :: word) = false := by
  simp [startsWithIgnoringCase, h]

/-- On a non-empty digit string, alone or followed by a newline, `strtod`
returns the rounded value of the digits. -/
theorem strtod_digits (ds t : List Char)
    (hd : ∀ c ∈ ds, c.isDigit = true) (hne : ds ≠ [])
    (ht : t = [] ∨ t = ['\n']) :
    strtod (ds ++ t) = Double.ofRat (decimalValue ds : ℚ) := by
  have hhex : parseHex (ds ++ t) = none := by
    apply parseHex_none
    intro x hx
    rcases List.mem_append.mp hx with hx | hx
    · have := digit_facts x (hd x hx)
      exact ⟨this.2.2.2.2.2.1, this.2.2.2.2.2.2.1⟩
    · rcases ht with rfl | rfl
      · simp at hx
      · rw [List.mem_singleton.mp hx]
        exact ⟨newline_facts.2.2.2.2.1, newline_facts.2.2.2.2.2⟩
  have hdec := parseDecimal_digits ds t hd hne ht
  cases ds with
  | nil => exact absurd rfl hne
  | cons d ds1 =>
    have hf := digit_facts d (hd d (List.mem_cons_self _ _))
    have hdrop : (d :: ds1 ++ t).dropWhile isspace = d :: ds1 ++ t := by
      simp [List.dropWhile, hf.1]
    have hminus : startsWithMinus (d :: ds1 ++ t) = false := by
      simp [startsWithMinus, hf.2.1]
    have hsign : dropSign (d :: ds1 ++ t) = d :: ds1 ++ t := by
      simp [dropSign, hf.2.1, hf.2.2.1]
    have hinf : startsWithIgnoringCase (d :: ds1 ++ t) ['i', 'n', 'f'] = false :=
      startsWithIgnoringCase_cons_ne d 'i' _ _ hf.2.2.2.2.2.2.2.1
    have hnan : startsWithIgnoringCase (d :: ds1 ++ t) ['n', 'a', 'n'] = false :=
      startsWithIgnoringCase_cons_ne d 'n' _ _ hf.2.2.2.2.2.2.2.2.1
    unfold strtod
    rw [hdrop, hminus, hsign]
    unfold strtodBody
    rw [hinf, hnan, hhex, hdec]
    simp

/-- Division of an exactly read integer by `1000.0`: the correctly rounded
quotient. -/
theorem div_thousand (n : ℕ) :
    Double.div (Double.fin n) (Double.fin 1000) = Double.ofRat ((n : ℚ) / 1000) := by
  simp [Double.div]

/-- Core of claim C2, for any digit string (leading zeros allowed). -/
theorem readTemperature_digits (env : Env) (filePath : String) (w : World)
    (ds tail : List Char)
    (hd : ∀ c ∈ ds, c.isDigit = true) (hne : ds ≠ []) (hlen : ds.length ≤ 15)
    (ht : tail = [] ∨ ∃ rest, tail = '\n' :: rest)
    (hfile : env.file filePath = File.content (ds ++ tail)) :
    (readTemperatureFromFile env filePath w).1 =
      Double.div (Double.fin (decimalValue ds)) (Double.fin 1000) := by
  have hlt : decimalValue ds < 2 ^ 53 := by
    have h1 := decimalValue_lt ds hd
    have h2 : 10 ^ ds.length ≤ 10 ^ 15 := Nat.pow_le_pow_right (by norm_num) hlen
    have h3 : (10 : ℕ) ^ 15 < 2 ^ 53 := by norm_num
    omega
  have hbuf : strtod (fgetsChars 15 (ds ++ tail)) = Double.fin (decimalValue ds) := by
    rcases fgetsChars_digits ds tail hd hlen ht with h | h
    · rw [h]
      have := strtod_digits ds [] hd hne (Or.inl rfl)
      rw [List.append_nil] at this
      rw [this, ofRat_natCast _ hlt]
    · rw [h, strtod_digits ds ['\n'] hd hne (Or.inr rfl), ofRat_natCast _ hlt]
  have hnonempty : fgetsChars 15 (ds ++ tail) ≠ [] := by
    rcases fgetsChars_digits ds tail hd hlen ht with h | h
    · rw [h]; exact hne
    · rw [h]; simp
  simp only [readTemperatureFromFile, hfile, Nat.add_one_sub_one, hnonempty, if_false, hbuf]

theorem digitChar_facts (d : ℕ) (h : d < 10) :
    (Nat.digitChar d).isDigit = true ∧ digitValue (Nat.digitChar d) = d := by
  interval_cases d <;> decide

theorem toDigitsCore_spec (fuel n : ℕ) (acc : List Char) (hn : n < fuel)
    (hacc : ∀ c ∈ acc, c.isDigit = true) :
    (∀ c ∈ Nat.toDigitsCore 10 fuel n acc, c.isDigit = true) ∧
    decimalValue (Nat.toDigitsCore 10 fuel n acc) = n * 10 ^ acc.length + decimalValue acc ∧
    Nat.toDigitsCore 10 fuel n acc ≠ [] := by
  induction fuel generalizing n acc with
  | zero => omega
  | succ fuel ih =>
    have hdc := digitChar_facts (n % 10) (Nat.mod_lt _ (by norm_num))
    have hacc1 : ∀ c ∈ Nat.digitChar (n % 10) :: acc, c.isDigit = true := by
      intro c hc
      rcases List.mem_cons.mp hc with rfl | hc
      · exact hdc.1
      · exact hacc c hc
    simp only [Nat.toDigitsCore]
    by_cases h0 : n / 10 = 0
    · simp only [h0, if_true]
      refine ⟨hacc1, ?_, by simp⟩
      rw [decimalValue_cons, hdc.2]
      have : n % 10 = n := by omega
      rw [this]
    · simp only [h0, if_false]
      have hlt : n / 10 < fuel := by omega
      obtain ⟨h1, h2, h3⟩ := ih (n / 10) (Nat.digitChar (n % 10) :: acc) hlt hacc1
      refine ⟨h1, ?_, h3⟩
      rw [h2, decimalValue_cons, hdc.2, List.length_cons, pow_succ]
      have e := Nat.div_add_mod n 10
      have : n * 10 ^ acc.length = (10 * (n / 10) + n % 10) * 10 ^ acc.length := by rw [e]
      rw [this]
      ring

/-- The decimal digit string of `n` (what `Nat.repr` prints) consists of
digits, is non-empty and denotes `n`. -/
theorem toDigits_spec (n : ℕ) :
    (∀ c ∈ Nat.toDigits 10 n, c.isDigit = true) ∧
    decimalValue (Nat.toDigits 10 n) = n ∧ Nat.toDigits 10 n ≠ [] := by
  have := toDigitsCore_spec (n + 1) n [] (Nat.lt_succ_self n) (by simp)
  simpa [Nat.toDigits, decimalValue] using this

theorem tempDriverPriorityFrom_first_match (chip : Chip) (pre post : List TempDriverDefs)
    (d : TempDriverDefs) (hpre : ∀ x ∈ pre, x.driverPrefix ≠ chip.chipPrefix)
    (hd : d.driverPrefix = chip.chipPrefix) :
    tempDriverPriorityFrom chip (pre ++ d :: post) = d.priority := by
  induction pre with
  | nil => simp [tempDriverPriorityFrom, String_eq, hd]
  | cons x xs ih =>
    have hx : chip.chipPrefix ≠ x.driverPrefix := fun h => hpre x (List.mem_cons_self _ _) h.symm
    simp only [List.cons_append, tempDriverPriorityFrom, String_eq, beq_iff_eq, hx, if_false]
    exact ih (fun y hy => hpre y (List.mem_cons_of_mem _ hy))

theorem parseHex_no_numeral (u : List Char) (h : startsNumeral u = false) :
    parseHex u = none := by
  cases u with
  | nil => rfl
  | cons c rest =>
    cases rest with
    | nil => rfl
    | cons x body =>
      have hc : c ≠ '0' := by
        rintro rfl
        simp [startsNumeral] at h
      simp [parseHex, hc]

theorem parseDecimal_no_numeral (u : List Char) (h : startsNumeral u = false) :
    parseDecimal u = none := by
  cases u with
  | nil => simp [parseDecimal, fractionDigits]
  | cons c rest =>
    simp only [startsNumeral, Bool.or_eq_false_iff, Bool.and_eq_false_iff,
      decide_eq_false_iff_not] at h
    obtain ⟨hdig, hpt⟩ := h
    have hfp : fractionDigits Char.isDigit (c :: rest) = [] := by
      simp only [fractionDigits]
      split_ifs with hc
      · rcases hpt with hpt | hpt
        · exact absurd hc hpt
        · cases rest with
          | nil => rfl
          | cons d t =>
            simp only [headIsDigit] at hpt
            simp [List.takeWhile, hpt]
      · rfl
    have htake : (c :: rest).takeWhile Char.isDigit = [] := by
      simp [List.takeWhile, hdig]
    have hdrop : (c :: rest).dropWhile Char.isDigit = c :: rest := by
      simp [List.dropWhile, hdig]
    simp only [parseDecimal, htake, hdrop, hfp, and_self, if_true]

/-- When the text does not begin with a number nor with the words `inf` or
`nan`, `strtod` converts nothing and returns zero. -/
theorem strtod_no_number (s : List Char) (hnum : beginsWithNumber s = false)
    (hinf : beginsWithWord s ['i', 'n', 'f'] = false)
    (hnan : beginsWithWord s ['n', 'a', 'n'] = false) :
    strtod s = Double.fin 0 := by
  simp only [beginsWithNumber, beginsWithWord] at hnum hinf hnan
  unfold strtod strtodBody
  rw [hinf, hnan, parseHex_no_numeral _ hnum, parseDecimal_no_numeral _ hnum]
  simp

/-- When the text begins with the word `inf`, `strtod` returns the infinity of
the sign read. -/
theorem strtod_inf (s : List Char) (hinf : beginsWithWord s ['i', 'n', 'f'] = true) :
    strtod s = Double.inf (startsWithMinus (s.dropWhile isspace)) := by
  simp only [beginsWithWord] at hinf
  unfold strtod strtodBody
  rw [hinf]
  simp

theorem readTemperature_no_number (env : Env) (filePath : String) (w : World)
    (bytes : List Char) (hfile : env.file filePath = File.content bytes)
    (hne : fgetsChars 15 bytes ≠ [])
    (hnum : beginsWithNumber (fgetsChars 15 bytes) = false)
    (hinf : beginsWithWord (fgetsChars 15 bytes) ['i', 'n', 'f'] = false)
    (hnan : beginsWithWord (fgetsChars 15 bytes) ['n', 'a', 'n'] = false) :
    (readTemperatureFromFile env filePath w).1 = Double.fin 0 := by
  simp only [readTemperatureFromFile, hfile, Nat.add_one_sub_one, hne, if_false,
    strtod_no_number _ hnum hinf hnan]
  simp [Double.div, Double.ofRat]

theorem readTemperature_inf (env : Env) (filePath : String) (w : World)
    (bytes : List Char) (hfile : env.file filePath = File.content bytes)
    (hne : fgetsChars 15 bytes ≠ [])
    (hinf : beginsWithWord (fgetsChars 15 bytes) ['i', 'n', 'f'] = true) :
    (readTemperatureFromFile env filePath w).1 =
      Double.inf (startsWithMinus ((fgetsChars 15 bytes).dropWhile isspace)) := by
  simp only [readTemperatureFromFile, hfile, Nat.add_one_sub_one, hne, if_false,
    strtod_inf _ hinf]
  have h : decide ((1000 : ℚ) < 0) = false := by norm_num
  simp only [Double.div, h]
  cases startsWithMinus ((fgetsChars 15 bytes).dropWhile isspace) <;> rfl

theorem readTemperature_unknown (env : Env) (filePath : String) (w : World)
    (hfile : env.file filePath = File.absent ∨ env.file filePath = File.readError ∨
      env.file filePath = File.content []) :
    (readTemperatureFromFile env filePath w).1 = Double.nan := by
  rcases hfile with h | h | h <;> simp [readTemperatureFromFile, h, fgetsChars, NAN]

theorem isnan_ofRat (q : ℚ) : isnan (Double.ofRat q) = false := by
  simp only [Double.ofRat]
  split_ifs <;> rfl

theorem isnan_div_thousand (x : Double) :
    isnan (Double.div x (Double.fin 1000)) = isnan x := by
  cases x with
  | nan => rfl
  | inf s => rfl
  | fin a =>
    have h : Double.div (Double.fin a) (Double.fin 1000) = Double.ofRat (a / 1000) := by
      simp [Double.div]
    rw [h, isnan_ofRat]
    rfl

theorem startsWith_inf_not_nan (u : List Char)
    (h : startsWithIgnoringCase u ['i', 'n', 'f'] = true) :
    startsWithIgnoringCase u ['n', 'a', 'n'] = false := by
  cases u with
  | nil => rfl
  | cons c rest =>
    apply startsWithIgnoringCase_cons_ne
    intro hc
    have hi : startsWithIgnoringCase (c :: rest) ['i', 'n', 'f'] = false :=
      startsWithIgnoringCase_cons_ne c 'i' rest _ (by rw [hc]; decide)
    rw [hi] at h
    cases h

/-- The conversion yields NaN exactly when the text after white space and
sign starts with `nan`. -/
theorem isnan_strtod (s : List Char) :
    isnan (strtod s) = startsWithIgnoringCase (dropSign (s.dropWhile isspace)) ['n', 'a', 'n'] := by
  unfold strtod strtodBody
  by_cases hinf : startsWithIgnoringCase (dropSign (s.dropWhile isspace)) ['i', 'n', 'f'] = true
  · rw [if_pos hinf, startsWith_inf_not_nan _ hinf]
    rfl
  · rw [if_neg hinf]
    by_cases hnan : startsWithIgnoringCase (dropSign (s.dropWhile isspace)) ['n', 'a', 'n'] = true
    · rw [if_pos hnan, hnan]
      rfl
    · rw [if_neg hnan]
      have hnan1 : startsWithIgnoringCase (dropSign (s.dropWhile isspace)) ['n', 'a', 'n']
          = false := by simpa using hnan
      rw [hnan1]
      cases parseHex (dropSign (s.dropWhile isspace)) with
      | some q => exact isnan_ofRat _
      | none =>
        cases parseDecimal (dropSign (s.dropWhile isspace)) with
        | some q => exact isnan_ofRat _
        | none => rfl

/-- On a file that opens and is not empty, the result is NaN exactly when
the text read, after white space and sign, starts with `nan`. -/
theorem readTemperature_isnan (env : Env) (filePath : String) (w : World)
    (bytes : List Char) (hfile : env.file filePath = File.content bytes)
    (hne : fgetsChars 15 bytes ≠ []) :
    isnan (readTemperatureFromFile env filePath w).1 =
      startsWithIgnoringCase (dropSign ((fgetsChars 15 bytes).dropWhile isspace))
        ['n', 'a', 'n'] := by
  simp only [readTemperatureFromFile, hfile, Nat.add_one_sub_one, hne, if_false]
  rw [isnan_div_thousand, isnan_strtod]

/-! ## Lemmas on `LibSensors_getCPUTemperatures` -/

theorem fillFrom_replicate (v : Double) (n : ℕ) (data : List Double) (h : data.length = n) :
    fillFrom v n data = List.replicate n v := by
  induction n generalizing data with
  | zero => cases data <;> simp_all [fillFrom]
  | succ n ih =>
    cases data with
    | nil => simp at h
    | cons x xs =>
      simp only [fillFrom, List.replicate_succ]
      rw [ih xs (by simpa using h)]

/-- The value of `readTemperatureFromFile` depends on the file alone. -/
theorem readTemperature_value (env env1 : Env) (filePath : String) (w w1 : World)
    (h : env.file filePath = env1.file filePath) :
    (readTemperatureFromFile env filePath w).1 = (readTemperatureFromFile env1 filePath w1).1 := by
  unfold readTemperatureFromFile
  rw [← h]
  cases env.file filePath with
  | absent => rfl
  | readError => rfl
  | content bytes => dsimp only; split_ifs <;> rfl

/-- The trace of `readTemperatureFromFile`: one `fopen` of the path, first. -/
theorem readTemperature_trace (env : Env) (filePath : String) (w : World) :
    ∃ evs, (readTemperatureFromFile env filePath w).2.trace =
        w.trace ++ Event.fopen filePath :: evs ∧
      ∀ e ∈ evs, ∀ q, e ≠ Event.fopen q := by
  unfold readTemperatureFromFile
  cases env.file filePath with
  | absent =>
    exact ⟨[Event.perror "Failed to open temperature file"], by simp [World.log], by simp⟩
  | readError =>
    exact ⟨[Event.fgets 16, Event.perror "Failed to read temperature", Event.fclose],
      by simp [World.log], by simp⟩
  | content bytes =>
    dsimp only
    split_ifs
    · exact ⟨[Event.fgets 16, Event.perror "Failed to read temperature", Event.fclose],
        by simp [World.log], by simp⟩
    · exact ⟨[Event.fgets 16, Event.fclose], by simp [World.log], by simp⟩

/-- The copy loop with a block holding `t` everywhere: every listed index is
overwritten with `t`, nothing else changes. -/
theorem copyOut_const (t : Double) (m : ℕ) (idxs : List ℕ) (cpus : List CPUData)
    (hidx : ∀ i ∈ idxs, i < m ∧ i < cpus.length) :
    ∃ cpus1, copyOut (List.replicate m t) idxs cpus = Except.ok cpus1 ∧
      cpus1.length = cpus.length ∧
      ∀ j, cpus1[j]? =
        if j ∈ idxs then cpus[j]?.map (fun c => { c with temperature := t }) else cpus[j]? := by
  induction idxs generalizing cpus with
  | nil => exact ⟨cpus, rfl, rfl, by simp⟩
  | cons i rest ih =>
    obtain ⟨him, hic⟩ := hidx i (List.mem_cons_self _ _)
    have hd : (List.replicate m t)[i]? = some t := by
      rw [List.getElem?_eq_getElem (by simpa using him)]
      simp
    have hc : cpus[i]? = some cpus[i] := List.getElem?_eq_getElem hic
    obtain ⟨cpus1, h1, h2, h3⟩ := ih (cpus.set i { cpus[i] with temperature := t })
      (by
        intro k hk
        have := hidx k (List.mem_cons_of_mem _ hk)
        simpa using this)
    refine ⟨cpus1, ?_, by simpa using h2, ?_⟩
    · simp only [copyOut, storeTemperature, hd, hc]
      exact h1
    · intro j
      rw [h3 j]
      by_cases hji : j = i
      · subst hji
        by_cases hjr : j ∈ rest <;> simp [hjr, hc, List.getElem?_set, hic]
      · have hne : i ≠ j := fun h => hji h.symm
        by_cases hjr : j ∈ rest <;> simp [hjr, hji, hne, List.getElem?_set]

/-- General description of `LibSensors_getCPUTemperatures` when the
assertion holds, the allocation succeeds and the array is long enough. -/
theorem getCPUTemperatures_spec (env : Env) (cpus : List CPUData)
    (existingCPUs activeCPUs : ℕ) (w : World)
    (h0 : 0 < existingCPUs) (h1 : existingCPUs < 16384)
    (hlen : existingCPUs + 1 ≤ cpus.length) (hm : env.mallocOk = true) :
    ∃ cpus1 w1,
      LibSensors_getCPUTemperatures env cpus existingCPUs activeCPUs w = Except.ok (cpus1, w1) ∧
      cpus1.length = cpus.length ∧
      (∀ j, cpus1[j]? =
        if j ≤ existingCPUs then
          cpus[j]?.map (fun c =>
            { c with temperature := (readTemperatureFromFile env THERMAL_ZONE_PATH w).1 })
        else cpus[j]?) ∧
      ∃ evs, w1.trace = w.trace ++ Event.malloc ((existingCPUs + 1) * 8) ::
          Event.fopen THERMAL_ZONE_PATH :: evs ∧
        ∀ e ∈ evs, ∀ q, e ≠ Event.fopen q := by
  have hval : ∀ w2, (readTemperatureFromFile env THERMAL_ZONE_PATH w2).1 =
      (readTemperatureFromFile env THERMAL_ZONE_PATH w).1 :=
    fun w2 => readTemperature_value env env _ w2 w rfl
  obtain ⟨evs, htr, hev⟩ := readTemperature_trace env THERMAL_ZONE_PATH
    (w.log (Event.malloc ((existingCPUs + 1) * 8)))
  have hdata1 : fillFrom NAN (existingCPUs + 1) ((List.range (existingCPUs + 1)).map env.heap)
      = List.replicate (existingCPUs + 1) NAN :=
    fillFrom_replicate _ _ _ (by simp)
  have hdata2 : (if ¬isnan (readTemperatureFromFile env THERMAL_ZONE_PATH w).1 = true then
        fillFrom (readTemperatureFromFile env THERMAL_ZONE_PATH w).1 (existingCPUs + 1)
          (List.replicate (existingCPUs + 1) NAN)
      else List.replicate (existingCPUs + 1) NAN) =
      List.replicate (existingCPUs + 1) (readTemperatureFromFile env THERMAL_ZONE_PATH w).1 := by
    have hnan : ∀ d : Double, isnan d = true → d = NAN := by
      intro d
      cases d <;> simp [isnan, NAN]
    by_cases hn : isnan (readTemperatureFromFile env THERMAL_ZONE_PATH w).1 = true
    · simp only [hn, not_true_eq_false, if_false]
      rw [hnan _ hn]
    · simp only [hn, not_false_eq_true, if_true]
      exact fillFrom_replicate _ _ _ (by simp)
  obtain ⟨cpus1, hc1, hc2, hc3⟩ := copyOut_const
    (readTemperatureFromFile env THERMAL_ZONE_PATH w).1 (existingCPUs + 1)
    (List.range (existingCPUs + 1)) cpus
    (by
      intro i hi
      have := List.mem_range.mp hi
      exact ⟨this, by omega⟩)
  refine ⟨cpus1, (readTemperatureFromFile env THERMAL_ZONE_PATH
      (w.log (Event.malloc ((existingCPUs + 1) * 8)))).2.log Event.free,
    ?_, hc2, ?_, evs ++ [Event.free], ?_, ?_⟩
  · simp only [LibSensors_getCPUTemperatures, h0, h1, and_self, not_true_eq_false, if_false,
      hm, hdata1, hval, hdata2, hc1]
  · intro j
    rw [hc3 j]
    simp only [List.mem_range, Nat.lt_succ_iff]
  · simp only [World.log] at htr ⊢
    rw [htr]
    simp
  · intro e he
    rcases List.mem_append.mp he with he | he
    · exact hev e he
    · rw [List.mem_singleton.mp he]
      intro q hq
      cases hq

/-- The sample thermal-zone content `52000` reads as 52 degrees. -/
theorem readTemperature_52000 (chips : List Chip) (ok : Bool) (w : World) :
    (readTemperatureFromFile (thermalEnv (.content "52000".toList) chips ok)
      THERMAL_ZONE_PATH w).1 = Double.fin 52 := by
  have h := readTemperature_digits (thermalEnv (.content "52000".toList) chips ok)
    THERMAL_ZONE_PATH w "52000".toList [] (by decide) (by decide) (by decide) (Or.inl rfl)
    (by simp [thermalEnv])
  have hv : decimalValue "52000".toList = 52000 := by decide
  rw [h, hv, div_thousand]
  have : ((52000 : ℕ) : ℚ) / 1000 = ((52 : ℕ) : ℚ) := by norm_num
  rw [this, ofRat_natCast 52 (by norm_num)]
  norm_num

/-- The records written by `LibSensors_getCPUTemperatures` are determined by
the thermal-zone file and the allocator: two environments that agree on
those give the same records, whatever the process state. -/
theorem getCPUTemperatures_records (e1 e2 : Env) (w1 w2 : World)
    (cpus : List CPUData) (existingCPUs activeCPUs : ℕ)
    (hf : e1.file THERMAL_ZONE_PATH = e2.file THERMAL_ZONE_PATH)
    (hm : e1.mallocOk = e2.mallocOk) (hh : e1.heap = e2.heap) :
    (LibSensors_getCPUTemperatures e1 cpus existingCPUs activeCPUs w1).map Prod.fst =
      (LibSensors_getCPUTemperatures e2 cpus existingCPUs activeCPUs w2).map Prod.fst := by
  simp only [LibSensors_getCPUTemperatures]
  rw [readTemperature_value e1 e2 THERMAL_ZONE_PATH
    (w1.log (Event.malloc ((existingCPUs + 1) * 8)))
    (w2.log (Event.malloc ((existingCPUs + 1) * 8))) hf, hm, hh]
  split_ifs <;>
    first
    | rfl
    | (cases copyOut _ (List.range (existingCPUs + 1)) cpus <;> rfl)

/-! ## Claims on `tempDriverPriority` and `readTemperatureFromFile` -/

/-- Claim C4: `tempDriverPriority` returns 0 for the prefixes `coretemp`,
`via_cputemp`, `cpu_thermal`, `k10temp` and `zenpower`, 1 for `acpitz` and
-1 for every other prefix; and in any table the first entry whose prefix
equals the chip's decides the result. -/
theorem tempDriverPriority_by_table (chip : Chip) :
    tempDriverPriority chip =
      (if chip.chipPrefix ∈ ["coretemp", "via_cputemp", "cpu_thermal", "k10temp", "zenpower"]
       then 0
       else if chip.chipPrefix = "acpitz" then 1 else -1) ∧
    (∀ (pre post : List TempDriverDefs) (d : TempDriverDefs),
      (∀ x ∈ pre, x.driverPrefix ≠ chip.chipPrefix) → d.driverPrefix = chip.chipPrefix →
      tempDriverPriorityFrom chip (pre ++ d :: post) = d.priority) := by
  refine ⟨?_, tempDriverPriorityFrom_first_match chip⟩
  simp only [tempDriverPriority, tempDriverPriorityFrom, tempDrivers, String_eq, beq_iff_eq,
    List.mem_cons, List.mem_singleton, List.not_mem_nil, or_false]
  split_ifs <;> simp_all

/-- Witness for C4: `nvme` is not in the table; with two entries for the
same prefix the earlier one decides. -/
theorem tempDriverPriority_by_table_witness :
    tempDriverPriority ⟨"nvme", []⟩ = -1 ∧
    tempDriverPriorityFrom ⟨"acpitz", []⟩
      ([⟨"coretemp", 0⟩] ++ ⟨"acpitz", 1⟩ :: [⟨"acpitz", 5⟩]) = 1 :=
  ⟨by
    have h := (tempDriverPriority_by_table ⟨"nvme", []⟩).1
    simpa using h,
   (tempDriverPriority_by_table ⟨"acpitz", []⟩).2 [⟨"coretemp", 0⟩] [⟨"acpitz", 5⟩]
     ⟨"acpitz", 1⟩ (by decide) rfl⟩

/-- Counterexample to claim C2 as stated: on the file content `1` the result
is the binary64 value `1152921504606847 / 2^60`, which is not `1 / 1000`. -/
theorem readTemperature_one_is_not_one_thousandth :
    (readTemperatureFromFile (thermalEnv (.content "1".toList) [] true)
      THERMAL_ZONE_PATH World.initial).1 =
        Double.fin (1152921504606847 / 1152921504606846976) ∧
    (readTemperatureFromFile (thermalEnv (.content "1".toList) [] true)
      THERMAL_ZONE_PATH World.initial).1 ≠ Double.fin (1 / 1000) := by
  have h := readTemperature_digits (thermalEnv (.content "1".toList) [] true)
    THERMAL_ZONE_PATH World.initial "1".toList [] (by decide) (by decide) (by decide)
    (Or.inl rfl) (by decide)
  have hv : decimalValue "1".toList = 1 := by decide
  rw [hv, div_thousand] at h
  have h1 : ((1 : ℕ) : ℚ) / 1000 = 1 / 1000 := by norm_num
  rw [h1, ofRat_one_thousandth] at h
  refine ⟨h, ?_⟩
  rw [h]
  intro hc
  have := Double.fin.inj hc
  norm_num at this

/-- Claim C2 as amended: for every natural number `n` whose decimal digit
string has at most 15 characters, on a file holding that digit string, ending
there or followed by a newline, `readTemperatureFromFile` returns the
`double` quotient of `n` by `1000.0`: a finite binary64 value that is strictly
nearer to `n / 1000` than every other finite binary64 value.  Hence it is
exactly `n / 1000` whenever `n / 1000` is a binary64 value, in particular for
every multiple of 1000 (`45000` gives `45.0`); no range check is involved. -/
theorem readTemperature_decimal_integer (env : Env) (filePath : String) (w : World)
    (n : ℕ) (tail : List Char)
    (hlen : (Nat.toDigits 10 n).length ≤ 15)
    (ht : tail = [] ∨ ∃ rest, tail = '\n' :: rest)
    (hfile : env.file filePath = File.content (Nat.toDigits 10 n ++ tail)) :
    (readTemperatureFromFile env filePath w).1 =
      Double.div (Double.fin n) (Double.fin 1000) ∧
    ∃ r : ℚ, (readTemperatureFromFile env filePath w).1 = Double.fin r ∧
      isBinary64 r ∧
      (∀ r1, isBinary64 r1 → r1 ≠ r → |r - (n : ℚ) / 1000| < |r1 - (n : ℚ) / 1000|) ∧
      (isBinary64 ((n : ℚ) / 1000) → r = (n : ℚ) / 1000) ∧
      (∀ k : ℕ, n = 1000 * k → r = k) := by
  obtain ⟨hd, hval, hne⟩ := toDigits_spec n
  have h := readTemperature_digits env filePath w (Nat.toDigits 10 n) tail hd hne hlen ht hfile
  rw [hval] at h
  have hn : n < 10 ^ 15 := by
    have h1 := decimalValue_lt (Nat.toDigits 10 n) hd
    rw [hval] at h1
    exact lt_of_lt_of_le h1 (Nat.pow_le_pow_right (by norm_num) hlen)
  obtain ⟨r, hr, hbin, hnear⟩ := ofRat_thousandth n hn
  have hexact : isBinary64 ((n : ℚ) / 1000) → r = (n : ℚ) / 1000 := by
    intro hq
    by_contra hc
    have := hnear _ hq (fun heq => hc heq.symm)
    rw [sub_self, abs_zero] at this
    exact absurd this (not_lt.mpr (abs_nonneg _))
  refine ⟨h, r, by rw [h, div_thousand, hr], hbin, hnear, hexact, ?_⟩
  intro k hk
  have hkq : (n : ℚ) / 1000 = (k : ℚ) := by
    rw [hk]
    push_cast
    field_simp
  rw [hexact (by
    rw [hkq]
    refine ⟨k, 0, ?_, by norm_num, by norm_num, by simp⟩
    have : (k : ℤ) < 2 ^ 53 := by
      have h3 : (10 : ℕ) ^ 15 < 2 ^ 53 := by norm_num
      have : k < 2 ^ 53 := by omega
      exact_mod_cast this
    rw [abs_of_nonneg (by positivity)]
    exact this), hkq]

/-- Witness for amended C2: the file content `45000`, with and without a
newline, reads as 45 degrees. -/
theorem readTemperature_decimal_integer_witness :
    (readTemperatureFromFile (thermalEnv (.content "45000\n".toList) [] true)
      THERMAL_ZONE_PATH World.initial).1 = Double.fin 45 ∧
    (readTemperatureFromFile (thermalEnv (.content "45000".toList) [] true)
      THERMAL_ZONE_PATH World.initial).1 = Double.fin 45 := by
  constructor
  · obtain ⟨_, r, hr, _, _, _, hk⟩ :=
      readTemperature_decimal_integer (thermalEnv (.content "45000\n".toList) [] true)
        THERMAL_ZONE_PATH World.initial 45000 ['\n'] (by decide) (Or.inr ⟨[], rfl⟩)
        (by decide)
    rw [hr, hk 45 (by norm_num)]
    norm_num
  · obtain ⟨_, r, hr, _, _, _, hk⟩ :=
      readTemperature_decimal_integer (thermalEnv (.content "45000".toList) [] true)
        THERMAL_ZONE_PATH World.initial 45000 [] (by decide) (Or.inl rfl)
        (by decide)
    rw [hr, hk 45 (by norm_num)]
    norm_num

/-- Counterexample to claim C3 as stated: on the openable file with content
`abc` and a newline, `readTemperatureFromFile` returns the number zero,
which is not NaN. -/
theorem readTemperature_abc_is_zero :
    (readTemperatureFromFile (thermalEnv (.content "abc\n".toList) [] true)
      THERMAL_ZONE_PATH World.initial).1 = Double.fin 0 ∧
    isnan (readTemperatureFromFile (thermalEnv (.content "abc\n".toList) [] true)
      THERMAL_ZONE_PATH World.initial).1 = false := by
  have h := readTemperature_no_number (thermalEnv (.content "abc\n".toList) [] true)
    THERMAL_ZONE_PATH World.initial "abc\n".toList (by decide) (by decide) (by decide)
    (by decide) (by decide)
  exact ⟨h, by rw [h]; rfl⟩

/-- Claim C3 as amended: when the file opens and the characters `fgets` reads
(the first line, at most 15 characters) are non-empty and do not begin with
a number (after optional white space and sign there is neither a digit nor a
decimal point followed by a digit), `readTemperatureFromFile` returns the
number zero, not NaN, unless that text begins with the word `nan` or `inf`;
with `inf` it returns an infinity, and NaN is returned exactly when the text
begins with `nan`.  NaN is also returned when the file cannot be opened,
cannot be read or is empty. -/
theorem readTemperature_parse_failure_is_zero (env : Env) (filePath : String) (w : World) :
    (∀ bytes : List Char, env.file filePath = File.content bytes →
      fgetsChars 15 bytes ≠ [] →
      beginsWithNumber (fgetsChars 15 bytes) = false →
      beginsWithWord (fgetsChars 15 bytes) ['i', 'n', 'f'] = false →
      beginsWithWord (fgetsChars 15 bytes) ['n', 'a', 'n'] = false →
      (readTemperatureFromFile env filePath w).1 = Double.fin 0 ∧
      isnan (readTemperatureFromFile env filePath w).1 = false) ∧
    (∀ bytes : List Char, env.file filePath = File.content bytes →
      fgetsChars 15 bytes ≠ [] →
      beginsWithWord (fgetsChars 15 bytes) ['i', 'n', 'f'] = true →
      (readTemperatureFromFile env filePath w).1 =
        Double.inf (startsWithMinus ((fgetsChars 15 bytes).dropWhile isspace))) ∧
    (∀ bytes : List Char, env.file filePath = File.content bytes →
      fgetsChars 15 bytes ≠ [] →
      (isnan (readTemperatureFromFile env filePath w).1 = true ↔
        beginsWithWord (fgetsChars 15 bytes) ['n', 'a', 'n'] = true)) ∧
    (env.file filePath = File.absent ∨ env.file filePath = File.readError ∨
      env.file filePath = File.content [] →
      isnan (readTemperatureFromFile env filePath w).1 = true) := by
  refine ⟨?_, ?_, ?_, ?_⟩
  · intro bytes hfile hne hnum hinf hnan
    have h := readTemperature_no_number env filePath w bytes hfile hne hnum hinf hnan
    exact ⟨h, by rw [h]; rfl⟩
  · intro bytes hfile hne hinf
    exact readTemperature_inf env filePath w bytes hfile hne hinf
  · intro bytes hfile hne
    rw [readTemperature_isnan env filePath w bytes hfile hne]
    rfl
  · intro hfile
    rw [readTemperature_unknown env filePath w hfile]
    rfl

/-- Witness for amended C3: the contents `N/A`, ` abc` and `-` read as zero,
`-inf` reads as minus infinity, `12ab` is not NaN exactly because it does not
begin with `nan`, and a missing file gives NaN. -/
theorem readTemperature_parse_failure_is_zero_witness :
    ((readTemperatureFromFile (thermalEnv (.content "N/A".toList) [] true)
        THERMAL_ZONE_PATH World.initial).1 = Double.fin 0 ∧
      isnan (readTemperatureFromFile (thermalEnv (.content "N/A".toList) [] true)
        THERMAL_ZONE_PATH World.initial).1 = false) ∧
    ((readTemperatureFromFile (thermalEnv (.content " abc".toList) [] true)
        THERMAL_ZONE_PATH World.initial).1 = Double.fin 0 ∧
      isnan (readTemperatureFromFile (thermalEnv (.content " abc".toList) [] true)
        THERMAL_ZONE_PATH World.initial).1 = false) ∧
    ((readTemperatureFromFile (thermalEnv (.content "-".toList) [] true)
        THERMAL_ZONE_PATH World.initial).1 = Double.fin 0 ∧
      isnan (readTemperatureFromFile (thermalEnv (.content "-".toList) [] true)
        THERMAL_ZONE_PATH World.initial).1 = false) ∧
    (readTemperatureFromFile (thermalEnv (.content "-inf".toList) [] true)
        THERMAL_ZONE_PATH World.initial).1 =
      Double.inf (startsWithMinus ((fgetsChars 15 "-inf".toList).dropWhile isspace)) ∧
    (isnan (readTemperatureFromFile (thermalEnv (.content "12ab".toList) [] true)
        THERMAL_ZONE_PATH World.initial).1 = true ↔
      beginsWithWord (fgetsChars 15 "12ab".toList) ['n', 'a', 'n'] = true) ∧
    isnan (readTemperatureFromFile (thermalEnv .absent [] true)
        "/nonexistent" World.initial).1 = true :=
  ⟨(readTemperature_parse_failure_is_zero (thermalEnv (.content "N/A".toList) [] true)
      THERMAL_ZONE_PATH World.initial).1 "N/A".toList (by decide) (by decide) (by decide)
      (by decide) (by decide),
   (readTemperature_parse_failure_is_zero (thermalEnv (.content " abc".toList) [] true)
      THERMAL_ZONE_PATH World.initial).1 " abc".toList (by decide) (by decide) (by decide)
      (by decide) (by decide),
   (readTemperature_parse_failure_is_zero (thermalEnv (.content "-".toList) [] true)
      THERMAL_ZONE_PATH World.initial).1 "-".toList (by decide) (by decide) (by decide)
      (by decide) (by decide),
   (readTemperature_parse_failure_is_zero (thermalEnv (.content "-inf".toList) [] true)
      THERMAL_ZONE_PATH World.initial).2.1 "-inf".toList (by decide) (by decide) (by decide),
   (readTemperature_parse_failure_is_zero (thermalEnv (.content "12ab".toList) [] true)
      THERMAL_ZONE_PATH World.initial).2.2.1 "12ab".toList (by decide) (by decide),
   (readTemperature_parse_failure_is_zero (thermalEnv .absent [] true)
      "/nonexistent" World.initial).2.2.2 (Or.inl (by decide))⟩

/-! ## Claims on `LibSensors_getCPUTemperatures` -/

/-- Counterexample to claim C1 as stated: with `existingCPUs = 4`, a thermal-zone file
holding `52000` and a failing `malloc`, the function returns right after the
`perror`: the file is not opened and the five records keep the 30 degrees of
the previous cycle instead of 52. -/
theorem getCPUTemperatures_malloc_failure_keeps_stale :
    LibSensors_getCPUTemperatures (thermalEnv (.content "52000".toList) [] false)
        staleCpus 4 4 World.initial =
      Except.ok (staleCpus,
        { World.initial with
          trace := [Event.malloc 40,
            Event.perror "Failed to allocate memory for temperature data"] }) ∧
    (∀ c ∈ staleCpus, c.temperature = Double.fin 30) ∧
    (readTemperatureFromFile (thermalEnv (.content "52000".toList) [] false)
      THERMAL_ZONE_PATH World.initial).1 = Double.fin 52 := by
  refine ⟨by rfl, by decide, readTemperature_52000 [] false World.initial⟩

/-- Claim C1 as amended: for `0 < existingCPUs < 16384`, any `activeCPUs` and
any record array with at least `existingCPUs + 1` records, when the
allocation of the scratch block succeeds the function returns, opens the
thermal-zone path exactly once (and no other file), and every slot
`0..existingCPUs` holds the single result of that read — the value, or NaN
when the read yields NaN — while other fields and later slots are untouched;
when the allocation fails it returns without reading and leaves every record
as it was. -/
theorem getCPUTemperatures_broadcasts_fallback (env : Env) (cpus : List CPUData)
    (existingCPUs activeCPUs : ℕ) (w : World)
    (h0 : 0 < existingCPUs) (h1 : existingCPUs < 16384)
    (hlen : existingCPUs + 1 ≤ cpus.length) :
    (env.mallocOk = true →
      ∃ cpus1 w1,
        LibSensors_getCPUTemperatures env cpus existingCPUs activeCPUs w =
          Except.ok (cpus1, w1) ∧
        cpus1.length = cpus.length ∧
        (∀ i, i ≤ existingCPUs → ∀ w0, ∃ c, cpus[i]? = some c ∧
          cpus1[i]? = some { c with
            temperature := (readTemperatureFromFile env THERMAL_ZONE_PATH w0).1 }) ∧
        (∀ i, existingCPUs < i → cpus1[i]? = cpus[i]?) ∧
        (newEvents w w1).count (Event.fopen THERMAL_ZONE_PATH) = 1 ∧
        (∀ q, Event.fopen q ∈ newEvents w w1 → q = THERMAL_ZONE_PATH)) ∧
    (env.mallocOk = false →
      LibSensors_getCPUTemperatures env cpus existingCPUs activeCPUs w =
        Except.ok (cpus,
          (w.log (Event.malloc ((existingCPUs + 1) * 8))).log
            (Event.perror "Failed to allocate memory for temperature data"))) := by
  constructor
  · intro hm
    obtain ⟨cpus1, w1, hres, hl, hslots, evs, htr, hev⟩ :=
      getCPUTemperatures_spec env cpus existingCPUs activeCPUs w h0 h1 hlen hm
    have hnew : newEvents w w1 = Event.malloc ((existingCPUs + 1) * 8) ::
        Event.fopen THERMAL_ZONE_PATH :: evs := by
      simp [newEvents, htr]
    have hcount : evs.count (Event.fopen THERMAL_ZONE_PATH) = 0 :=
      List.count_eq_zero.mpr (fun hmem => hev _ hmem THERMAL_ZONE_PATH rfl)
    refine ⟨cpus1, w1, hres, hl, ?_, ?_, ?_, ?_⟩
    · intro i hi w0
      have hic : i < cpus.length := by omega
      refine ⟨cpus[i], List.getElem?_eq_getElem hic, ?_⟩
      rw [hslots i, if_pos hi, List.getElem?_eq_getElem hic,
        readTemperature_value env env THERMAL_ZONE_PATH w0 w rfl]
      rfl
    · intro i hi
      rw [hslots i, if_neg (by omega)]
    · rw [hnew]
      simp [hcount]
    · intro q hq
      rw [hnew] at hq
      rcases List.mem_cons.mp hq with hq | hq
      · cases hq
      · rcases List.mem_cons.mp hq with hq | hq
        · cases hq; rfl
        · exact absurd rfl (hev _ hq q)
  · intro hm
    simp [LibSensors_getCPUTemperatures, h0, h1, hm]

/-- Witness for amended C1: four CPUs; when the file holds `52000` the call
returns and slots 0..4 hold 52 degrees; when the file is missing they hold
NaN. -/
theorem getCPUTemperatures_broadcasts_fallback_witness :
    (∃ cpus1 w1,
      LibSensors_getCPUTemperatures (thermalEnv (.content "52000".toList) [] true)
        staleCpus 4 4 World.initial = Except.ok (cpus1, w1) ∧
      cpus1.length = 5 ∧
      ∀ i, i ≤ 4 → ∃ c, staleCpus[i]? = some c ∧
        cpus1[i]? = some { c with temperature := Double.fin 52 }) ∧
    (∃ cpus1 w1,
      LibSensors_getCPUTemperatures (thermalEnv .absent [] true)
        staleCpus 4 4 World.initial = Except.ok (cpus1, w1) ∧
      cpus1.length = 5 ∧
      ∀ i, i ≤ 4 → ∃ c, staleCpus[i]? = some c ∧
        cpus1[i]? = some { c with temperature := Double.nan }) := by
  constructor
  · obtain ⟨cpus1, w1, hres, hl, hslots, _⟩ :=
      (getCPUTemperatures_broadcasts_fallback (thermalEnv (.content "52000".toList) [] true)
        staleCpus 4 4 World.initial (by decide) (by decide) (by decide)).1 rfl
    refine ⟨cpus1, w1, hres, hl, ?_⟩
    intro i hi
    obtain ⟨c, hc, hs⟩ := hslots i hi World.initial
    rw [readTemperature_52000] at hs
    exact ⟨c, hc, hs⟩
  · obtain ⟨cpus1, w1, hres, hl, hslots, _⟩ :=
      (getCPUTemperatures_broadcasts_fallback (thermalEnv .absent [] true)
        staleCpus 4 4 World.initial (by decide) (by decide) (by decide)).1 rfl
    refine ⟨cpus1, w1, hres, hl, ?_⟩
    intro i hi
    obtain ⟨c, hc, hs⟩ := hslots i hi World.initial
    rw [readTemperature_unknown _ _ _ (Or.inl (by decide))] at hs
    exact ⟨c, hc, hs⟩

/-- Counterexample to claim C5 as stated: with the library bound and initialised and the
chips `acpitz` (40 degrees) and `coretemp` (60 and 61 degrees) detected, the
lowest-priority-value chip is `coretemp`, yet every slot receives the 52
degrees of the thermal-zone file, which no chip reports. -/
theorem getCPUTemperatures_ignores_detected_chips :
    boundWorld.dlopenHandle ≠ 0 ∧
    bestChips sampleChips = [⟨"coretemp", [.fin 60, .fin 61]⟩] ∧
    (∀ ch ∈ sampleChips, Double.fin 52 ∉ ch.temps) ∧
    ∃ cpus1 w1,
      LibSensors_getCPUTemperatures (thermalEnv (.content "52000".toList) sampleChips true)
        staleCpus 4 4 boundWorld = Except.ok (cpus1, w1) ∧
      ∀ i, i ≤ 4 → cpus1[i]?.map (fun c => c.temperature) = some (Double.fin 52) := by
  refine ⟨by decide, by decide, by decide, ?_⟩
  obtain ⟨cpus1, w1, hres, _, hslots, _⟩ :=
    getCPUTemperatures_spec (thermalEnv (.content "52000".toList) sampleChips true)
      staleCpus 4 4 boundWorld (by decide) (by decide) (by decide) rfl
  refine ⟨cpus1, w1, hres, ?_⟩
  intro i hi
  have hic : i < staleCpus.length := by
    have : staleCpus.length = 5 := by decide
    omega
  rw [hslots i, if_pos hi, List.getElem?_eq_getElem hic, readTemperature_52000]
  rfl

/-- Claim C5 as amended: `LibSensors_getCPUTemperatures` consults neither the
binding nor the detected chips nor `tempDriverPriority`: the records it
returns are the same for any two lists of detected chips (in particular for
every detection order) and any two process states, and when it writes, the
slots `0..existingCPUs` hold the reading of the thermal-zone file. -/
theorem getCPUTemperatures_independent_of_chips (env : Env) (chips1 chips2 : List Chip)
    (w1 w2 : World) (cpus : List CPUData) (existingCPUs activeCPUs : ℕ) :
    (LibSensors_getCPUTemperatures { env with chips := chips1 } cpus existingCPUs activeCPUs
        w1).map Prod.fst =
      (LibSensors_getCPUTemperatures { env with chips := chips2 } cpus existingCPUs activeCPUs
        w2).map Prod.fst ∧
    (0 < existingCPUs → existingCPUs < 16384 → existingCPUs + 1 ≤ cpus.length →
      env.mallocOk = true →
      ∃ cpus1 w3,
        LibSensors_getCPUTemperatures { env with chips := chips1 } cpus existingCPUs
          activeCPUs w1 = Except.ok (cpus1, w3) ∧
        ∀ i, i ≤ existingCPUs → cpus1[i]?.map (fun c => c.temperature) =
          some (readTemperatureFromFile env THERMAL_ZONE_PATH w1).1) := by
  refine ⟨getCPUTemperatures_records _ _ w1 w2 cpus existingCPUs activeCPUs rfl rfl rfl, ?_⟩
  intro h0 h1 hlen hm
  obtain ⟨cpus1, w3, hres, _, hslots, _⟩ :=
    getCPUTemperatures_spec { env with chips := chips1 } cpus existingCPUs activeCPUs w1
      h0 h1 hlen hm
  refine ⟨cpus1, w3, hres, ?_⟩
  intro i hi
  have hic : i < cpus.length := by omega
  rw [hslots i, if_pos hi, List.getElem?_eq_getElem hic,
    readTemperature_value { env with chips := chips1 } env THERMAL_ZONE_PATH w1 w1 rfl]
  rfl

/-- Witness for amended C5: the two detection orders of the sample chips give
the same records, and slot 0..4 hold the file's reading. -/
theorem getCPUTemperatures_independent_of_chips_witness :
    (LibSensors_getCPUTemperatures
        { thermalEnv (.content "52000".toList) [] true with chips := sampleChips }
        staleCpus 4 4 boundWorld).map Prod.fst =
      (LibSensors_getCPUTemperatures
        { thermalEnv (.content "52000".toList) [] true with chips := sampleChips.reverse }
        staleCpus 4 4 World.initial).map Prod.fst ∧
    ∃ cpus1 w3,
      LibSensors_getCPUTemperatures
        { thermalEnv (.content "52000".toList) [] true with chips := sampleChips }
        staleCpus 4 4 boundWorld = Except.ok (cpus1, w3) ∧
      ∀ i, i ≤ 4 → cpus1[i]?.map (fun c => c.temperature) =
        some (readTemperatureFromFile (thermalEnv (.content "52000".toList) [] true)
          THERMAL_ZONE_PATH boundWorld).1 :=
  ⟨(getCPUTemperatures_independent_of_chips (thermalEnv (.content "52000".toList) [] true)
      sampleChips sampleChips.reverse boundWorld World.initial staleCpus 4 4).1,
   (getCPUTemperatures_independent_of_chips (thermalEnv (.content "52000".toList) [] true)
      sampleChips sampleChips.reverse boundWorld World.initial staleCpus 4 4).2
      (by decide) (by decide) (by decide) rfl⟩

end LibSensors
